import Mathlib

/-!
# Verification of the polls-app backend voting/broadcast core

Shallow embedding of the repository's voting and broadcast handlers
(`src/resources/votes.mjs`, wired by the CDK stack as
`votes.connectHandler` / `votes.disconnectHandler` / `votes.messagesHandler`,
and `createPollHandler` from `src/resources/polls.mjs`).

The DynamoDB tables are modelled as association lists from (PK, SK) string
keys to items.  Store semantics follow DynamoDB:
* `PutItem` overwrites the item with the same key in place (or appends);
* `DeleteItem` succeeds even when the key is absent;
* `UpdateItem` with expression `SET votesCount = votesCount + :v` fails with
  a `ValidationException` when the item is absent or lacks the
  `votesCount` attribute (the expression refers to a missing attribute),
  and in that case writes nothing;
* `Query` on a partition returns items in ascending lexicographic order of
  the string sort key.

Store unavailability is modelled by a schedule `avail : Nat → Bool` indexed
by the ordinal of the DynamoDB call inside one handler invocation; delivery
success of `PostToConnection` per connection by `deliverOk : String → Bool`.
-/

namespace PollsApp

/-! ## Character-list string helpers

All string manipulation the handlers perform (template interpolation of
keys, `begins_with` conditions, `SK.split("#")[1]`, `Number(...)`) is
modelled on `List Char` so that every definition reduces structurally. -/

/-- Boolean prefix test on char lists (models DynamoDB `begins_with` and
JS `startsWith`). -/
def listPrefix : List Char → List Char → Bool
  | [], _ => true
  | _ :: _, [] => false
  | p :: ps, s :: ss => p == s && listPrefix ps ss

/-- Strict lexicographic order on char lists by code point (models
DynamoDB's byte ordering of ASCII string sort keys). -/
def listLt : List Char → List Char → Bool
  | [], [] => false
  | [], _ :: _ => true
  | _ :: _, [] => false
  | a :: as, b :: bs => a.toNat < b.toNat || (a.toNat == b.toNat && listLt as bs)

/-- Non-strict lexicographic order on char lists. -/
def listLe (a b : List Char) : Bool := listLt a b || a == b

/-- Decimal digit character for a value `< 10`. -/
def digitChar (n : Nat) : Char := Char.ofNat (48 + n)

/-- Numeric value of a decimal digit character, `none` otherwise. -/
def charDigit (c : Char) : Option Nat :=
  if 48 ≤ c.toNat && c.toNat ≤ 57 then some (c.toNat - 48) else none

/-- Decimal rendering of a natural number as a char list (big-endian),
with explicit fuel so that the definition is structural.  `natChars n`
below supplies sufficient fuel; it models JS template interpolation
`${n}` of a non-negative integer. -/
def natDigitsAux : Nat → Nat → List Char
  | 0, _ => []
  | fuel + 1, n =>
    if n < 10 then [digitChar n]
    else natDigitsAux fuel (n / 10) ++ [digitChar (n % 10)]

/-- Decimal rendering of `n` (`"0"` for `0`), as produced by `${n}`. -/
def natChars (n : Nat) : List Char := natDigitsAux (n + 1) n

/-- Parse a big-endian digit list with accumulator; `none` on a non-digit. -/
def digitsValAux : List Char → Nat → Option Nat
  | [], acc => some acc
  | c :: cs, acc =>
    match charDigit c with
    | some d => digitsValAux cs (acc * 10 + d)
    | none => none

/-- Numeric value of a non-empty digit string (models JS `Number(s)` on
the digit strings reachable here; `none` corresponds to `NaN`). -/
def digitsVal : List Char → Option Nat
  | [] => none
  | cs => digitsValAux cs 0

/-- Chars strictly after the first `'#'` (first step of
`SK.split("#")[1]`). -/
def afterHash : List Char → List Char
  | [] => []
  | c :: cs => if c == '#' then cs else afterHash cs

/-- Chars up to the next `'#'` (second step of `SK.split("#")[1]`). -/
def untilHash : List Char → List Char
  | [] => []
  | c :: cs => if c == '#' then [] else c :: untilHash cs

/-- `Number(sk.split("#")[1])` for the option sort keys built by the code
(`OPTION#<n>`); the `getD 0` branch is unreachable on those keys. -/
def skNum (sk : String) : Nat := (digitsVal (untilHash (afterHash sk.data))).getD 0

/-! ## Data model -/

/-- Identity attributes stored for a user (`{name, email}` /
`{email, name}` objects in the source). -/
structure UserInfo where
  name : String
  email : String
deriving Repr, DecidableEq

/-- Attributes of an item in the polls table (beyond its PK/SK key).
Absent attributes are `none`; only the attributes the embedded handlers
read or write are carried. -/
structure DBItem where
  votesCount : Option Int := none
  optionId : Option Nat := none
  text : Option String := none
  user : Option UserInfo := none
  question : Option String := none
  owner : Option UserInfo := none
  createdAt : Option String := none
deriving Repr, DecidableEq

abbrev Key := String × String

/-- The polls table: association list from (PK, SK) to item attributes.
All operations keep keys unique. -/
abbrev PollsTable := List (Key × DBItem)

/-- The connections table: association list from connection id (its PK) to
the optional `user` attribute of the item. -/
abbrev ConnTable := List (String × Option UserInfo)

/-- `POLL#${pollId}` -/
def pollPK (pollId : String) : String := "POLL#" ++ pollId

/-- `OPTION#${optionId}` -/
def optionSK (optionId : Nat) : String := "OPTION#" ++ ⟨natChars optionId⟩

/-- `VOTE#${userId}` -/
def voteSK (userId : String) : String := "VOTE#" ++ userId

/-! ## Store operations (DynamoDB semantics) -/

/-- `GetItem`. -/
def tblGet (t : PollsTable) (k : Key) : Option DBItem :=
  (t.find? (fun e => e.1 == k)).map (·.2)

/-- `PutItem`: overwrite in place, or append when the key is absent. -/
def tblPut : PollsTable → Key → DBItem → PollsTable
  | [], k, v => [(k, v)]
  | e :: es, k, v => if e.1 == k then (k, v) :: es else e :: tblPut es k v

/-- The write performed by a successful
`SET votesCount = votesCount + :v` update: bump the matching item's
`votesCount` by `δ`, leave everything else untouched. -/
def bumpVotes (t : PollsTable) (k : Key) (δ : Int) : PollsTable :=
  t.map (fun e =>
    if e.1 == k then (e.1, { e.2 with votesCount := e.2.votesCount.map (· + δ) }) else e)

/-- `UpdateItem` with `SET votesCount = votesCount + :v`: fails
(`none`, DynamoDB `ValidationException`) when the item is absent or has no
`votesCount` attribute; writes nothing on failure. -/
def tblUpdateAdd (t : PollsTable) (k : Key) (δ : Int) : Option PollsTable :=
  match tblGet t k with
  | none => none
  | some it =>
    match it.votesCount with
    | none => none
    | some _ => some (bumpVotes t k δ)

/-- Insert into a list sorted by `le`, keeping it sorted. -/
def insertSorted (le : α → α → Bool) (x : α) : List α → List α
  | [] => [x]
  | y :: ys => if le x y then x :: y :: ys else y :: insertSorted le x ys

/-- Insertion sort by a boolean relation. -/
def sortByB (le : α → α → Bool) : List α → List α
  | [] => []
  | x :: xs => insertSorted le x (sortByB le xs)

/-- `Query` with `PK = pk AND begins_with(SK, skPrefix)`: the matching
items of the partition, in ascending lexicographic sort-key order, as
(SK, item) pairs. -/
def tblQuery (t : PollsTable) (pk skPrefix : String) : List (String × DBItem) :=
  sortByB (fun a b => listLe a.1.data b.1.data)
    ((t.filter (fun e => e.1.1 == pk && listPrefix skPrefix.data e.1.2.data)).map
      (fun e => (e.1.2, e.2)))

/-- Connections `GetItem`. -/
def connGet (t : ConnTable) (cid : String) : Option (Option UserInfo) :=
  (t.find? (fun e => e.1 == cid)).map (·.2)

/-- Connections `PutItem`. -/
def connPut : ConnTable → String → Option UserInfo → ConnTable
  | [], cid, u => [(cid, u)]
  | e :: es, cid, u => if e.1 == cid then (cid, u) :: es else e :: connPut es cid u

/-- Connections `DeleteItem`: removes the item when present; succeeds
(without error) when absent. -/
def connDelete (t : ConnTable) (cid : String) : ConnTable :=
  t.filter (fun e => !(e.1 == cid))

/-! ## Events, payloads, results -/

/-- A parsed inbound vote message plus the transport's connection id
(`JSON.parse(event.body)` and `event.requestContext.connectionId`). -/
structure VoteEvent where
  connectionId : String
  pollId : String
  optionId : Nat
deriving Repr, DecidableEq

/-- One entry of the options array the handler builds:
`{id: Number(opt.SK.split("#")[1]), text: opt.text, votesCount: opt.votesCount}`. -/
structure TallyEntry where
  id : Nat
  text : Option String
  votesCount : Option Int
deriving Repr, DecidableEq

/-- The broadcast `Data` of `votes.mjs`:
`JSON.stringify({pollId, options, user: {name: userName, email: userId}})`.
It has exactly these three fields; in particular no timestamp. -/
structure Payload where
  pollId : String
  options : List TallyEntry
  user : UserInfo
deriving Repr, DecidableEq

/-- The broadcast `Data` of the `src/unnamed/part_002` variant of
`messagesHandler`, which additionally carries the invocation timestamp
under the attribute name `createdAt` (not `votedAt`). -/
structure PayloadV2 where
  pollId : String
  options : List TallyEntry
  user : UserInfo
  createdAt : String
deriving Repr, DecidableEq

/-- Combined store state: the polls table and the connections table. -/
structure SysState where
  polls : PollsTable
  conns : ConnTable
deriving Repr, DecidableEq

/-- Observable outcome of one `messagesHandler` invocation: the HTTP-style
result (`statusCode`, error message in the body if any), the store state
after the call, and the list of (connectionId, payload) deliveries that
succeeded. -/
structure MessagesOutcome where
  statusCode : Nat
  errorMsg : Option String
  state : SysState
  delivered : List (String × Payload)
deriving Repr, DecidableEq

/-- Result of `connectHandler` / `disconnectHandler`. -/
structure SimpleResult where
  statusCode : Nat
deriving Repr, DecidableEq

/-- The vote record written by step 5 of `messagesHandler`:
`{PK, SK: VOTE#userId, optionId, user: {email: userId, name: userName}}`. -/
def voteRec (o : Nat) (u : UserInfo) : DBItem :=
  { optionId := some o, user := some u }

/-- The options array built from the `OPTION#` query in `messagesHandler`
(step 6), which is also the tally of the broadcast payload. -/
def getTally (t : PollsTable) (pollId : String) : List TallyEntry :=
  (tblQuery t (pollPK pollId) "OPTION#").map
    (fun e => { id := skNum e.1, text := e.2.text, votesCount := e.2.votesCount })

/-- An error caught by the outer `try/catch`:
`{statusCode: 500, body: JSON.stringify({error: err.message})}`.  The state
keeps every mutation already applied; nothing is broadcast. -/
def errOut (st : SysState) (msg : String) : MessagesOutcome :=
  { statusCode := 500, errorMsg := some msg, state := st, delivered := [] }

/-! ## Handlers (`src/resources/votes.mjs`) -/

/-- Steps 4–8 of `messagesHandler`: increment the new option, persist the
vote record, fetch the updated options, scan connections, broadcast.
`n` is the index of the next store call in the availability schedule
(store calls are numbered in invocation order). -/
def messagesTail (avail : Nat → Bool) (deliverOk : String → Bool)
    (ev : VoteEvent) (u : UserInfo) (st : SysState) (n : Nat) : MessagesOutcome :=
  -- 4. UpdateCommand: SET votesCount = votesCount + 1 on OPTION#optionId
  if !avail n then errOut st "StoreUnavailable" else
  match tblUpdateAdd st.polls (pollPK ev.pollId, optionSK ev.optionId) 1 with
  | none => errOut st "ValidationException"
  | some t2 =>
    let st2 : SysState := { st with polls := t2 }
    -- 5. PutCommand: {PK, SK: VOTE#userId, optionId, user}
    if !avail (n + 1) then errOut st2 "StoreUnavailable" else
    let st3 : SysState :=
      { st2 with polls := tblPut st2.polls (pollPK ev.pollId, voteSK u.email)
                   (voteRec ev.optionId u) }
    -- 6. QueryCommand: options of the poll
    if !avail (n + 2) then errOut st3 "StoreUnavailable" else
    let options := getTally st3.polls ev.pollId
    -- 8. ScanCommand on connections, then PostToConnection to each item's
    -- PK; per-connection send errors are swallowed by the inner catch and
    -- the Promise.allSettled result is discarded.
    if !avail (n + 3) then errOut st3 "StoreUnavailable" else
    let payload : Payload := { pollId := ev.pollId, options := options, user := u }
    { statusCode := 200, errorMsg := none, state := st3,
      delivered := ((st3.conns.map Prod.fst).filter deliverOk).map (fun c => (c, payload)) }

/-- `messagesHandler` of `votes.mjs`: resolve the connection's user, read
the previous vote, decrement the previous option if a previous vote
exists, then continue with `messagesTail`.  Any thrown store error is
caught by the outer `try/catch`, which returns a 500 with the state as
mutated so far. -/
def messagesHandler (avail : Nat → Bool) (deliverOk : String → Bool)
    (ev : VoteEvent) (st : SysState) : MessagesOutcome :=
  -- 1. GetCommand on CONNECTIONS_TABLE
  if !avail 0 then errOut st "StoreUnavailable" else
  match connGet st.conns ev.connectionId with
  | none => errOut st "User not found for this connection"
  | some none => errOut st "User not found for this connection"
  | some (some u) =>
    -- 2. GetCommand: previous vote of this user on this poll
    if !avail 1 then errOut st "StoreUnavailable" else
    match tblGet st.polls (pollPK ev.pollId, voteSK u.email) with
    | some pv =>
      -- 3. UpdateCommand: SET votesCount = votesCount - 1 on the previous
      -- option (`OPTION#${previousVote.Item.optionId}`)
      if !avail 2 then errOut st "StoreUnavailable" else
      let prevSK : String :=
        match pv.optionId with
        | some p => optionSK p
        | none => "OPTION#undefined"
      match tblUpdateAdd st.polls (pollPK ev.pollId, prevSK) (-1) with
      | none => errOut st "ValidationException"
      | some t1 => messagesTail avail deliverOk ev u { st with polls := t1 } 3
    | none => messagesTail avail deliverOk ev u st 2

/-- `disconnectHandler`: delete the connection record; 500 only when the
store call itself fails. -/
def disconnectHandler (avail : Nat → Bool) (connectionId : String) (st : SysState) :
    SimpleResult × SysState :=
  if avail 0 then
    ({ statusCode := 200 }, { st with conns := connDelete st.conns connectionId })
  else ({ statusCode := 500 }, st)

/-- `connectHandler`: put the connection record with the authorizer's
identity (overwrites an existing record with the same id). -/
def connectHandler (avail : Nat → Bool) (connectionId : String) (identity : UserInfo)
    (st : SysState) : SimpleResult × SysState :=
  if avail 0 then
    ({ statusCode := 200 }, { st with conns := connPut st.conns connectionId (some identity) })
  else ({ statusCode := 500 }, st)

/-- `List.map` with the element's index, as in JS `array.map((x, i) => ...)`. -/
def mapIdx (f : Nat → α → β) : Nat → List α → List β
  | _, [] => []
  | i, x :: xs => f i x :: mapIdx f (i + 1) xs

/-- The stored shape of the option item with ordinal `i`, text `txt` and
counter `c`: exactly the attributes `createPollHandler` writes
(`{optionId: i, text: opt, votesCount: c}`), with the counter evolved by
the vote updates. -/
def mkOptItem (i : Nat) (txt : String) (c : Int) : DBItem :=
  { optionId := some i, text := some txt, votesCount := some c }

/-- The items written by `createPollHandler` (`polls.mjs`) for a new poll:
the `POLL` item plus one `OPTION#${i+1}` item per option with
`optionId: i + 1`, `text: opt`, `votesCount: 0`.  A fresh poll id means a
fresh partition, so this is the whole partition content. -/
def createPollItems (pollId question : String) (owner : UserInfo) (createdAt : String)
    (options : List String) : PollsTable :=
  ((pollPK pollId, "POLL"),
    { question := some question, owner := some owner, createdAt := some createdAt }) ::
  mapIdx (fun i opt => ((pollPK pollId, optionSK (i + 1)), mkOptItem (i + 1) opt 0)) 0 options

/-! ## Observations and runs -/

/-- The all-available store schedule. -/
def allOk : Nat → Bool := fun _ => true

/-- Process a sequence of vote events to quiescence (each event handled to
completion with the store available throughout). -/
def runVotes (deliverOk : String → Bool) (st : SysState) : List VoteEvent → SysState
  | [] => st
  | ev :: evs => runVotes deliverOk (messagesHandler allOk deliverOk ev st).state evs

/-- Key predicate of an option item of the poll. -/
def optionPred (pollId : String) (e : Key × DBItem) : Bool :=
  e.1.1 == pollPK pollId && listPrefix "OPTION#".data e.1.2.data

/-- Key predicate of a vote record of the poll. -/
def votePred (pollId : String) (e : Key × DBItem) : Bool :=
  e.1.1 == pollPK pollId && listPrefix "VOTE#".data e.1.2.data

/-- The option items of the poll, as stored. -/
def optionItems (t : PollsTable) (pollId : String) : PollsTable :=
  t.filter (optionPred pollId)

/-- The vote records of the poll, as stored. -/
def voteItems (t : PollsTable) (pollId : String) : PollsTable :=
  t.filter (votePred pollId)

/-- Sum of the per-option counters as exposed by the tally. -/
def tallySum (t : PollsTable) (pollId : String) : Int :=
  ((getTally t pollId).map (fun e => e.votesCount.getD 0)).sum

/-- Number of vote records of the poll whose `optionId` is `i`. -/
def cntVote (t : PollsTable) (pollId : String) (i : Nat) : Nat :=
  (voteItems t pollId).countP (fun e => e.2.optionId == some i)

/-- A vote event is valid for a connection table, poll and option list
when its connection resolves to a user, it targets the poll, and its
option id is one of the poll's ordinals `1..N`. -/
def validEvent (conns : ConnTable) (pollId : String) (numOpts : Nat) (ev : VoteEvent) : Prop :=
  (∃ u, connGet conns ev.connectionId = some (some u)) ∧
  ev.pollId = pollId ∧ 1 ≤ ev.optionId ∧ ev.optionId ≤ numOpts

/-! ## Invariant vocabulary -/

/-- The option items of a poll whose counters are given by `cnt`, indexed
from ordinal `s + 1`. -/
def mkOptItemsFrom (pollId : String) (cnt : Nat → Int) (s : Nat) (opts : List String) :
    PollsTable :=
  mapIdx (fun i txt => ((pollPK pollId, optionSK (i + 1)), mkOptItem (i + 1) txt (cnt (i + 1))))
    s opts

/-- The option items of a poll whose counters are given by `cnt`. -/
def mkOptItems (pollId : String) (opts : List String) (cnt : Nat → Int) : PollsTable :=
  mkOptItemsFrom pollId cnt 0 opts

/-- `Σ_{j=1}^{n} cnt (s + j)`: the sum of the counters of `n` consecutive
ordinals starting above `s`. -/
def cntSum (cnt : Nat → Int) : Nat → Nat → Int
  | _, 0 => 0
  | s, n + 1 => cnt (s + 1) + cntSum cnt (s + 1) n

/-- The reachable-state invariant of a poll's partition: table keys are
unique, the option items are exactly the created ones with each counter
equal to the number of vote records pointing at that option, and every
vote record points at one of the poll's ordinals. -/
structure PollInv (t : PollsTable) (pollId : String) (opts : List String) : Prop where
  nodup : (t.map Prod.fst).Nodup
  optEq : optionItems t pollId = mkOptItems pollId opts (fun i => (cntVote t pollId i : Int))
  votesValid : ∀ e ∈ voteItems t pollId, ∃ i, e.2.optionId = some i ∧ 1 ≤ i ∧ i ≤ opts.length

/-! ## Concrete scenario data (used by witnesses and counterexamples) -/

/-- Voter identity of the scenarios. -/
def alice : UserInfo := { name := "alice", email := "a@x" }

/-- Second connected identity of the scenarios. -/
def bob : UserInfo := { name := "bob", email := "b@x" }

/-- Poll owner of the scenarios. -/
def pollOwner : UserInfo := { name := "own", email := "o@x" }

/-- Scenario state: the 2-option poll `"Pizza?"` fresh from creation, with
two registered connections. -/
def st0 : SysState :=
  { polls := createPollItems "p" "Pizza?" pollOwner "t0" ["Yes", "No"],
    conns := [("c1", some alice), ("c2", some bob)] }

/-- Scenario event: `alice` votes option 1 on poll `"p"`. -/
def evA : VoteEvent := { connectionId := "c1", pollId := "p", optionId := 1 }

/-- Scenario event: `alice` votes option 2 on poll `"p"`. -/
def evB : VoteEvent := { connectionId := "c1", pollId := "p", optionId := 2 }

/-- Scenario event: `alice` votes the nonexistent option 99 on poll `"p"`. -/
def ev99 : VoteEvent := { connectionId := "c1", pollId := "p", optionId := 99 }

/-- A freshly created poll with ten options and one registered
connection. -/
def st10 : SysState :=
  { polls := createPollItems "q" "Q?" pollOwner "t0"
      ["a", "b", "c", "d", "e", "f", "g", "h", "i", "j"],
    conns := [("c1", some alice)] }

/-- Scenario event: `alice` votes option 1 on the ten-option poll. -/
def evQ : VoteEvent := { connectionId := "c1", pollId := "q", optionId := 1 }

/-- The state after `alice`'s vote for option 1 on the scenario poll. -/
def st1 : SysState := (messagesHandler allOk (fun _ => true) evA st0).state

/-- The polls table after a successful first vote: the increment of the
new option followed by the Vote-record write (steps 4-5 of
`messagesHandler`). -/
def postVoteTable (t : PollsTable) (ev : VoteEvent) (u : UserInfo) : PollsTable :=
  tblPut (bumpVotes t (pollPK ev.pollId, optionSK ev.optionId) 1)
    (pollPK ev.pollId, voteSK u.email) (voteRec ev.optionId u)

/-- The payload `messagesHandler` broadcasts after a successful vote. -/
def votePayload (t : PollsTable) (ev : VoteEvent) (u : UserInfo) : Payload :=
  { pollId := ev.pollId, options := getTally t ev.pollId, user := u }

/-- The full broadcast `Data` of scenario A's vote, as an explicit
record: a pollId, the two-entry options array, and the voter — and no
other field; in particular no `votedAt` and no timestamp of any kind. -/
def scenarioAPayload : Payload :=
  { pollId := "p",
    options := [{ id := 1, text := some "Yes", votesCount := some 1 },
                { id := 2, text := some "No", votesCount := some 0 }],
    user := alice }

end PollsApp

namespace PollsApp

/-! # Store-model lemmas -/

theorem tblGet_cons (e : Key × DBItem) (es : PollsTable) (k : Key) :
    tblGet (e :: es) k = if e.1 == k then some e.2 else tblGet es k := by
  cases h : (e.1 == k) with
  | true => simp [tblGet, List.find?, h]
  | false => simp [tblGet, List.find?, h]

theorem tblGet_put_self (t : PollsTable) (k : Key) (v : DBItem) :
    tblGet (tblPut t k v) k = some v := by
  induction t with
  | nil => simp [tblPut, tblGet, List.find?]
  | cons e es ih =>
    cases h : (e.1 == k) with
    | true => simp [tblPut, h, tblGet, List.find?]
    | false => rw [tblPut, if_neg (by simp [h]), tblGet_cons, if_neg (by simp [h]), ih]

theorem tblGet_put_ne (t : PollsTable) (k k' : Key) (v : DBItem) (h : k' ≠ k) :
    tblGet (tblPut t k v) k' = tblGet t k' := by
  induction t with
  | nil =>
    simp [tblPut, tblGet, List.find?, show (k == k') = false from by
      simp [beq_eq_false_iff_ne]; exact fun hh => h hh.symm]
  | cons e es ih =>
    cases hek : (e.1 == k) with
    | true =>
      rw [tblPut, if_pos (by simp [hek]), tblGet_cons, tblGet_cons]
      have hk : e.1 = k := by simpa using hek
      rw [show ((k, v).1 == k') = false from by
        simp [beq_eq_false_iff_ne]; exact fun hh => h hh.symm]
      rw [show (e.1 == k') = false from by
        subst hk; simp [beq_eq_false_iff_ne]; exact fun hh => h hh.symm]
      simp
    | false => rw [tblPut, if_neg (by simp [hek]), tblGet_cons, tblGet_cons, ih]

theorem tblPut_eq_of_get (t : PollsTable) (k : Key) (v : DBItem)
    (h : tblGet t k = some v) : tblPut t k v = t := by
  induction t with
  | nil => simp [tblGet, List.find?] at h
  | cons e es ih =>
    rw [tblGet_cons] at h
    cases hek : (e.1 == k) with
    | true =>
      rw [if_pos hek] at h
      have hk : e.1 = k := by simpa using hek
      cases h
      rw [tblPut, if_pos hek]
      exact congrArg (· :: es) (Prod.ext hk.symm rfl)
    | false =>
      rw [if_neg (by simp [hek])] at h
      rw [tblPut, if_neg (by simp [hek]), ih h]

theorem tblPut_absent (t : PollsTable) (k : Key) (v : DBItem)
    (h : tblGet t k = none) : tblPut t k v = t ++ [(k, v)] := by
  induction t with
  | nil => rfl
  | cons e es ih =>
    rw [tblGet_cons] at h
    cases hek : (e.1 == k) with
    | true => rw [if_pos hek] at h; cases h
    | false =>
      rw [if_neg (by simp [hek])] at h
      rw [tblPut, if_neg (by simp [hek]), ih h, List.cons_append]

theorem tblGet_bump_self (t : PollsTable) (k : Key) (δ : Int) :
    tblGet (bumpVotes t k δ) k =
      (tblGet t k).map (fun it => { it with votesCount := it.votesCount.map (· + δ) }) := by
  induction t with
  | nil => rfl
  | cons e es ih =>
    cases hek : (e.1 == k) with
    | true =>
      have hk : e.1 = k := by simpa using hek
      rw [bumpVotes, List.map_cons, if_pos hek, tblGet_cons, tblGet_cons, if_pos hek]
      simp [hk]
    | false =>
      rw [bumpVotes, List.map_cons, if_neg (by simp [hek]), tblGet_cons, tblGet_cons,
        if_neg (by simp [hek]), if_neg (by simp [hek])]
      exact ih

theorem tblGet_bump_ne (t : PollsTable) (k k' : Key) (δ : Int) (h : k' ≠ k) :
    tblGet (bumpVotes t k δ) k' = tblGet t k' := by
  induction t with
  | nil => rfl
  | cons e es ih =>
    cases hek : (e.1 == k) with
    | true =>
      have hk : e.1 = k := by simpa using hek
      rw [bumpVotes, List.map_cons, if_pos hek, tblGet_cons, tblGet_cons]
      have : (e.1 == k') = false := by
        subst hk; simp [beq_eq_false_iff_ne]; exact fun hh => h hh.symm
      rw [this]
      simp only [this]
      exact ih
    | false =>
      rw [bumpVotes, List.map_cons, if_neg (by simp [hek]), tblGet_cons, tblGet_cons]
      cases hek' : (e.1 == k') with
      | true => rfl
      | false => exact ih

theorem tblGet_bump_none (t : PollsTable) (k k' : Key) (δ : Int)
    (h : tblGet t k' = none) : tblGet (bumpVotes t k δ) k' = none := by
  by_cases hkk : k' = k
  · subst hkk; rw [tblGet_bump_self, h]; rfl
  · rw [tblGet_bump_ne _ _ _ _ hkk]; exact h

end PollsApp

namespace PollsApp

theorem tblGet_eq_none_iff (t : PollsTable) (k : Key) :
    tblGet t k = none ↔ ∀ e ∈ t, e.1 ≠ k := by
  simp [tblGet, List.find?_eq_none]

theorem mem_of_tblGet (t : PollsTable) (k : Key) (v : DBItem)
    (h : tblGet t k = some v) : (k, v) ∈ t := by
  unfold tblGet at h
  cases hf : t.find? (fun e => e.1 == k) with
  | none => rw [hf] at h; cases h
  | some e =>
    rw [hf] at h
    have hm := List.mem_of_find?_eq_some hf
    have hp := List.find?_some hf
    have hk : e.1 = k := by simpa using hp
    have hv : e.2 = v := by simpa using h
    have he : e = (k, v) := Prod.ext hk hv
    rwa [he] at hm

theorem tblGet_of_mem_nodup (t : PollsTable) (k : Key) (v : DBItem)
    (hn : (t.map Prod.fst).Nodup) (hm : (k, v) ∈ t) : tblGet t k = some v := by
  induction t with
  | nil => cases hm
  | cons e es ih =>
    rw [tblGet_cons]
    rcases List.mem_cons.mp hm with he | hm'
    · rw [← he]; simp
    · have hkmem : k ∈ es.map Prod.fst := List.mem_map.mpr ⟨(k, v), hm', rfl⟩
      rw [List.map_cons, List.nodup_cons] at hn
      have hne : e.1 ≠ k := fun hh => hn.1 (hh ▸ hkmem)
      rw [if_neg (by simp [hne])]
      exact ih hn.2 hm'

theorem map_fst_bump (t : PollsTable) (k : Key) (δ : Int) :
    (bumpVotes t k δ).map Prod.fst = t.map Prod.fst := by
  induction t with
  | nil => rfl
  | cons e es ih =>
    rw [bumpVotes, List.map_cons, List.map_cons, List.map_cons]
    rw [bumpVotes] at ih
    rw [ih]
    cases hek : (e.1 == k) with
    | true => simp
    | false => simp

theorem map_fst_put_sub (t : PollsTable) (k : Key) (v : DBItem) :
    ∀ x ∈ (tblPut t k v).map Prod.fst, x ∈ t.map Prod.fst ∨ x = k := by
  induction t with
  | nil =>
    intro x hx
    right
    rw [tblPut, List.map_singleton, List.mem_singleton] at hx
    exact hx
  | cons e es ih =>
    intro x hx
    cases hek : (e.1 == k) with
    | true =>
      rw [tblPut, if_pos hek, List.map_cons, List.mem_cons] at hx
      rcases hx with h | h
      · right; exact h
      · left; rw [List.map_cons, List.mem_cons]; right; exact h
    | false =>
      rw [tblPut, if_neg (by simp [hek]), List.map_cons, List.mem_cons] at hx
      rcases hx with h | h
      · left; rw [List.map_cons, List.mem_cons]; left; exact h
      · rcases ih x h with h' | h'
        · left; rw [List.map_cons, List.mem_cons]; right; exact h'
        · right; exact h'

theorem nodup_put (t : PollsTable) (k : Key) (v : DBItem)
    (hn : (t.map Prod.fst).Nodup) : ((tblPut t k v).map Prod.fst).Nodup := by
  induction t with
  | nil => simp [tblPut]
  | cons e es ih =>
    rw [List.map_cons, List.nodup_cons] at hn
    cases hek : (e.1 == k) with
    | true =>
      have hke : e.1 = k := by simpa using hek
      rw [tblPut, if_pos hek, List.map_cons, List.nodup_cons]
      exact ⟨by rw [← hke]; exact hn.1, hn.2⟩
    | false =>
      rw [tblPut, if_neg (by simp [hek]), List.map_cons, List.nodup_cons]
      refine ⟨fun hmem => ?_, ih hn.2⟩
      rcases map_fst_put_sub es k v _ hmem with h | h
      · exact hn.1 h
      · exact (by simpa using hek : ¬ e.1 = k) h

theorem filter_put_neg (t : PollsTable) (k : Key) (v : DBItem)
    (p : Key × DBItem → Bool) (hk : ∀ w, p (k, w) = false) :
    (tblPut t k v).filter p = t.filter p := by
  induction t with
  | nil => simp [tblPut, List.filter, hk v]
  | cons e es ih =>
    cases hek : (e.1 == k) with
    | true =>
      have hke : e.1 = k := by simpa using hek
      rw [tblPut, if_pos hek, List.filter_cons, List.filter_cons]
      have hpe : p e = false := by
        rw [show e = (k, e.2) from Prod.ext hke rfl]; exact hk e.2
      rw [hk v, hpe]
      simp
    | false =>
      rw [tblPut, if_neg (by simp [hek]), List.filter_cons, List.filter_cons, ih]

theorem bumpVotes_cons (e : Key × DBItem) (es : PollsTable) (k : Key) (δ : Int) :
    bumpVotes (e :: es) k δ =
      (if e.1 == k then (e.1, { e.2 with votesCount := e.2.votesCount.map (· + δ) }) else e)
        :: bumpVotes es k δ := rfl

theorem filter_bump_neg (t : PollsTable) (k : Key) (δ : Int)
    (p : Key × DBItem → Bool) (hk : ∀ w, p (k, w) = false) :
    (bumpVotes t k δ).filter p = t.filter p := by
  induction t with
  | nil => rfl
  | cons e es ih =>
    cases hek : (e.1 == k) with
    | true =>
      have hke : e.1 = k := by simpa using hek
      rw [bumpVotes_cons, if_pos hek, List.filter_cons, List.filter_cons]
      have hpe : p e = false := by
        rw [show e = (k, e.2) from Prod.ext hke rfl]; exact hk e.2
      have hpe' :
          p (e.1, { e.2 with votesCount := e.2.votesCount.map (· + δ) }) = false := by
        rw [hke]; exact hk _
      rw [hpe, hpe']
      simpa using ih
    | false =>
      rw [bumpVotes_cons, if_neg (by simp [hek]), List.filter_cons, List.filter_cons, ih]

theorem filter_bump_comm (t : PollsTable) (k : Key) (δ : Int)
    (p : Key × DBItem → Bool) (hp : ∀ kk w w', p (kk, w) = p (kk, w')) :
    (bumpVotes t k δ).filter p = bumpVotes (t.filter p) k δ := by
  induction t with
  | nil => rfl
  | cons e es ih =>
    cases hek : (e.1 == k) with
    | true =>
      rw [bumpVotes_cons, if_pos hek, List.filter_cons, List.filter_cons]
      have hpe' :
          p (e.1, { e.2 with votesCount := e.2.votesCount.map (· + δ) }) = p e := by
        conv_rhs => rw [show e = (e.1, e.2) from rfl]
        exact hp e.1 _ _
      rw [hpe']
      by_cases hpe : p e = true
      · rw [if_pos hpe, if_pos hpe, bumpVotes_cons, if_pos hek, ih]
      · rw [if_neg hpe, if_neg hpe, ih]
    | false =>
      rw [bumpVotes_cons, if_neg (by simp [hek]), List.filter_cons, List.filter_cons]
      by_cases hpe : p e = true
      · rw [if_pos hpe, if_pos hpe, bumpVotes_cons, if_neg (by simp [hek]), ih]
      · rw [if_neg hpe, if_neg hpe, ih]

theorem countP_put_none (t : PollsTable) (k : Key) (v : DBItem)
    (p : Key × DBItem → Bool) (h : tblGet t k = none) :
    (tblPut t k v).countP p = t.countP p + (if p (k, v) then 1 else 0) := by
  rw [tblPut_absent _ _ _ h, List.countP_append]
  simp [List.countP_cons]

theorem countP_put_some (t : PollsTable) (k : Key) (v w : DBItem)
    (p : Key × DBItem → Bool) (h : tblGet t k = some w) :
    (tblPut t k v).countP p + (if p (k, w) then 1 else 0)
      = t.countP p + (if p (k, v) then 1 else 0) := by
  induction t with
  | nil => simp [tblGet, List.find?] at h
  | cons e es ih =>
    rw [tblGet_cons] at h
    cases hek : (e.1 == k) with
    | true =>
      rw [if_pos hek] at h
      have hke : e.1 = k := by simpa using hek
      obtain rfl : e.2 = w := by injection h
      rw [tblPut, if_pos hek, List.countP_cons, List.countP_cons]
      have hpe : p e = p (k, e.2) := by
        rw [show e = (k, e.2) from Prod.ext hke rfl]
      rw [hpe]
      omega
    | false =>
      rw [if_neg (by simp [hek])] at h
      rw [tblPut, if_neg (by simp [hek]), List.countP_cons, List.countP_cons]
      have := ih h
      omega

theorem countP_key_le_one (t : PollsTable) (k : Key)
    (hn : (t.map Prod.fst).Nodup) : t.countP (fun e => e.1 == k) ≤ 1 := by
  induction t with
  | nil => simp
  | cons e es ih =>
    rw [List.map_cons, List.nodup_cons] at hn
    rw [List.countP_cons]
    cases hek : (e.1 == k) with
    | false => simpa [hek] using ih hn.2
    | true =>
      have hke : e.1 = k := by simpa using hek
      have hz : es.countP (fun e => e.1 == k) = 0 := by
        rw [List.countP_eq_zero]
        intro a ha hpa
        have hak : a.1 = k := by simpa using hpa
        exact hn.1 (by rw [hke]; exact List.mem_map.mpr ⟨a, ha, hak⟩)
      simp [hz, hek]

theorem connDelete_absent (t : ConnTable) (cid : String)
    (h : connGet t cid = none) : connDelete t cid = t := by
  unfold connGet at h
  rw [Option.map_eq_none'] at h
  rw [List.find?_eq_none] at h
  unfold connDelete
  rw [List.filter_eq_self]
  intro e he
  simpa using h e he

end PollsApp

namespace PollsApp

/-! # Decimal rendering and key lemmas -/

theorem charDigit_digitChar : ∀ d, d < 10 → charDigit (digitChar d) = some d := by decide

theorem digitChar_ne_hash : ∀ d, d < 10 → ¬ digitChar d = '#' := by decide

theorem digitsValAux_append (xs ys : List Char) (acc : Nat) :
    digitsValAux (xs ++ ys) acc =
      match digitsValAux xs acc with
      | some m => digitsValAux ys m
      | none => none := by
  induction xs generalizing acc with
  | nil => rfl
  | cons c cs ih =>
    rw [List.cons_append]
    simp only [digitsValAux]
    cases hc : charDigit c with
    | some d => exact ih _
    | none => rfl

theorem natDigitsAux_spec : ∀ fuel n acc, n < fuel →
    digitsValAux (natDigitsAux fuel n) acc
      = some (acc * 10 ^ (natDigitsAux fuel n).length + n) := by
  intro fuel
  induction fuel with
  | zero => intro n acc h; exact absurd h (Nat.not_lt_zero n)
  | succ fuel ih =>
    intro n acc h
    by_cases h10 : n < 10
    · rw [natDigitsAux, if_pos h10]
      simp only [digitsValAux]
      rw [charDigit_digitChar n h10]
      simp only [digitsValAux, List.length_singleton, pow_one]
    · rw [natDigitsAux, if_neg h10]
      rw [digitsValAux_append]
      have hrec : n / 10 < fuel := by omega
      rw [ih (n / 10) acc hrec]
      simp only [digitsValAux]
      rw [charDigit_digitChar (n % 10) (by omega)]
      simp only [digitsValAux, List.length_append, List.length_singleton]
      congr 1
      rw [pow_succ, ← mul_assoc]
      generalize acc * 10 ^ (natDigitsAux fuel (n / 10)).length = Y
      omega

theorem natDigitsAux_ne_nil (fuel n : Nat) (h : n < fuel) : natDigitsAux fuel n ≠ [] := by
  cases fuel with
  | zero => exact absurd h (Nat.not_lt_zero n)
  | succ fuel =>
    rw [natDigitsAux]
    by_cases h10 : n < 10
    · rw [if_pos h10]; simp
    · rw [if_neg h10]; simp

theorem digitsVal_natChars (n : Nat) : digitsVal (natChars n) = some n := by
  unfold natChars
  rcases List.exists_cons_of_ne_nil (natDigitsAux_ne_nil (n + 1) n (Nat.lt_succ_self n))
    with ⟨c, cs', hcons⟩
  rw [hcons]
  show digitsValAux (c :: cs') 0 = some n
  rw [← hcons, natDigitsAux_spec (n + 1) n 0 (Nat.lt_succ_self n)]
  simp

theorem natDigitsAux_digits : ∀ fuel n c, c ∈ natDigitsAux fuel n →
    ∃ d, d < 10 ∧ c = digitChar d := by
  intro fuel
  induction fuel with
  | zero => intro n c h; cases h
  | succ fuel ih =>
    intro n c h
    by_cases h10 : n < 10
    · rw [natDigitsAux, if_pos h10] at h
      rcases List.mem_singleton.mp h with rfl
      exact ⟨n, h10, rfl⟩
    · rw [natDigitsAux, if_neg h10] at h
      rcases List.mem_append.mp h with h' | h'
      · exact ih _ _ h'
      · rcases List.mem_singleton.mp h' with rfl
        exact ⟨n % 10, by omega, rfl⟩

theorem natChars_no_hash (n : Nat) : ∀ c ∈ natChars n, ¬ c = '#' := by
  intro c hc
  rcases natDigitsAux_digits (n + 1) n c hc with ⟨d, hd, rfl⟩
  exact digitChar_ne_hash d hd

theorem untilHash_no_hash (cs : List Char) (h : ∀ c ∈ cs, ¬ c = '#') :
    untilHash cs = cs := by
  induction cs with
  | nil => rfl
  | cons c cs ih =>
    rw [untilHash, if_neg (by simpa using h c (List.mem_cons_self c cs)),
      ih (fun c' hc' => h c' (List.mem_cons_of_mem c hc'))]

theorem optionSK_data (i : Nat) : (optionSK i).data = "OPTION#".data ++ natChars i := rfl

theorem afterHash_option_prefix (cs : List Char) :
    afterHash ("OPTION#".data ++ cs) = cs := rfl

theorem skNum_optionSK (i : Nat) : skNum (optionSK i) = i := by
  unfold skNum
  rw [optionSK_data, afterHash_option_prefix,
    untilHash_no_hash _ (natChars_no_hash i), digitsVal_natChars]
  rfl

theorem optionSK_inj {i j : Nat} (h : optionSK i = optionSK j) : i = j := by
  have := congrArg skNum h
  rwa [skNum_optionSK, skNum_optionSK] at this

theorem listPrefix_append (p rest : List Char) : listPrefix p (p ++ rest) = true := by
  induction p with
  | nil => rfl
  | cons c cs ih => simp [listPrefix, ih]

theorem optionSK_hasPrefix (i : Nat) :
    listPrefix "OPTION#".data (optionSK i).data = true := by
  rw [optionSK_data]; exact listPrefix_append _ _

theorem voteSK_hasPrefix (s : String) :
    listPrefix "VOTE#".data (voteSK s).data = true := by
  show listPrefix "VOTE#".data ("VOTE#".data ++ s.data) = true
  exact listPrefix_append _ _

theorem votePrefix_optionSK (i : Nat) :
    listPrefix "VOTE#".data (optionSK i).data = false := rfl

theorem optionPrefix_voteSK (s : String) :
    listPrefix "OPTION#".data (voteSK s).data = false := rfl

theorem optionPrefix_poll : listPrefix "OPTION#".data "POLL".data = false := by decide

theorem votePrefix_poll : listPrefix "VOTE#".data "POLL".data = false := by decide

theorem voteSK_ne_optionSK (s : String) (i : Nat) : voteSK s ≠ optionSK i := by
  intro h
  have hh : listPrefix "VOTE#".data (voteSK s).data
      = listPrefix "VOTE#".data (optionSK i).data := by rw [h]
  rw [voteSK_hasPrefix, votePrefix_optionSK] at hh
  cases hh

theorem optionSK_ne_poll (i : Nat) : optionSK i ≠ "POLL" := by
  intro h
  have hh : listPrefix "OPTION#".data (optionSK i).data
      = listPrefix "OPTION#".data "POLL".data := by rw [h]
  rw [optionSK_hasPrefix, optionPrefix_poll] at hh
  cases hh

theorem voteSK_ne_poll (s : String) : voteSK s ≠ "POLL" := by
  intro h
  have hh : listPrefix "VOTE#".data (voteSK s).data
      = listPrefix "VOTE#".data "POLL".data := by rw [h]
  rw [voteSK_hasPrefix, votePrefix_poll] at hh
  cases hh

end PollsApp

namespace PollsApp

/-! # Sorting lemmas -/

theorem char_toNat_inj {a b : Char} (h : a.toNat = b.toNat) : a = b :=
  Char.ext (UInt32.toNat.inj h)

theorem mem_insertSorted (le : α → α → Bool) (x y : α) (l : List α) :
    y ∈ insertSorted le x l ↔ y = x ∨ y ∈ l := by
  induction l with
  | nil => simp [insertSorted]
  | cons z zs ih =>
    by_cases h : le x z = true
    · rw [insertSorted, if_pos h]
      simp only [List.mem_cons]
    · rw [insertSorted, if_neg h]
      simp only [List.mem_cons, ih]
      tauto

theorem perm_insertSorted (le : α → α → Bool) (x : α) (l : List α) :
    List.Perm (insertSorted le x l) (x :: l) := by
  induction l with
  | nil => exact List.Perm.refl _
  | cons z zs ih =>
    by_cases h : le x z = true
    · rw [insertSorted, if_pos h]
    · rw [insertSorted, if_neg h]
      exact List.Perm.trans (List.Perm.cons z ih) (List.Perm.swap x z zs)

theorem perm_sortByB (le : α → α → Bool) (l : List α) : List.Perm (sortByB le l) l := by
  induction l with
  | nil => exact List.Perm.refl _
  | cons x xs ih =>
    exact List.Perm.trans (perm_insertSorted le x (sortByB le xs)) (List.Perm.cons x ih)

theorem pairwise_insertSorted (le : α → α → Bool)
    (htot : ∀ a b, le a b = true ∨ le b a = true)
    (htrans : ∀ a b c, le a b = true → le b c = true → le a c = true)
    (x : α) (l : List α) (hl : l.Pairwise (fun a b => le a b = true)) :
    (insertSorted le x l).Pairwise (fun a b => le a b = true) := by
  induction l with
  | nil => simp [insertSorted]
  | cons z zs ih =>
    rw [List.pairwise_cons] at hl
    by_cases h : le x z = true
    · rw [insertSorted, if_pos h, List.pairwise_cons]
      constructor
      · intro y hy
        rcases List.mem_cons.mp hy with rfl | hy'
        · exact h
        · exact htrans x z y h (hl.1 y hy')
      · exact List.pairwise_cons.mpr hl
    · rw [insertSorted, if_neg h, List.pairwise_cons]
      constructor
      · intro y hy
        rcases (mem_insertSorted le x y zs).mp hy with hyx | hy'
        · rw [hyx]
          rcases htot x z with h' | h'
          · exact absurd h' h
          · exact h'
        · exact hl.1 y hy'
      · exact ih hl.2

theorem pairwise_sortByB (le : α → α → Bool)
    (htot : ∀ a b, le a b = true ∨ le b a = true)
    (htrans : ∀ a b c, le a b = true → le b c = true → le a c = true)
    (l : List α) : (sortByB le l).Pairwise (fun a b => le a b = true) := by
  induction l with
  | nil => simp [sortByB]
  | cons x xs ih => exact pairwise_insertSorted le htot htrans x _ ih

theorem listLt_trans : ∀ a b c : List Char,
    listLt a b = true → listLt b c = true → listLt a c = true := by
  intro a
  induction a with
  | nil =>
    intro b c hab hbc
    cases b with
    | nil => cases hab
    | cons y ys =>
      cases c with
      | nil => cases hbc
      | cons z zs => rfl
  | cons x xs ih =>
    intro b c hab hbc
    cases b with
    | nil => cases hab
    | cons y ys =>
      cases c with
      | nil => cases hbc
      | cons z zs =>
        rw [listLt] at hab hbc ⊢
        simp only [Bool.or_eq_true, Bool.and_eq_true, decide_eq_true_eq,
          beq_iff_eq] at hab hbc ⊢
        rcases hab with h1 | ⟨h1e, h1t⟩ <;> rcases hbc with h2 | ⟨h2e, h2t⟩
        · left; omega
        · left; omega
        · left; omega
        · right; exact ⟨by omega, ih ys zs h1t h2t⟩

theorem listLt_total : ∀ a b : List Char,
    listLt a b = true ∨ a = b ∨ listLt b a = true := by
  intro a
  induction a with
  | nil =>
    intro b
    cases b with
    | nil => right; left; rfl
    | cons y ys => left; rfl
  | cons x xs ih =>
    intro b
    cases b with
    | nil => right; right; rfl
    | cons y ys =>
      rcases Nat.lt_trichotomy x.toNat y.toNat with h | h | h
      · left; rw [listLt]
        simp only [Bool.or_eq_true, decide_eq_true_eq]
        left; exact h
      · have hxy : x = y := char_toNat_inj h
        rcases ih ys with h' | h' | h'
        · left; rw [listLt]
          simp only [Bool.or_eq_true, Bool.and_eq_true, decide_eq_true_eq, beq_iff_eq]
          right; exact ⟨h, h'⟩
        · right; left; rw [hxy, h']
        · right; right; rw [listLt]
          simp only [Bool.or_eq_true, Bool.and_eq_true, decide_eq_true_eq, beq_iff_eq]
          right; exact ⟨h.symm, h'⟩
      · right; right; rw [listLt]
        simp only [Bool.or_eq_true, decide_eq_true_eq]
        left; exact h

theorem listLe_total : ∀ a b : List Char, listLe a b = true ∨ listLe b a = true := by
  intro a b
  unfold listLe
  simp only [Bool.or_eq_true, beq_iff_eq]
  rcases listLt_total a b with h | h | h
  · left; left; exact h
  · left; right; exact h
  · right; left; exact h

theorem listLe_trans : ∀ a b c : List Char,
    listLe a b = true → listLe b c = true → listLe a c = true := by
  intro a b c hab hbc
  unfold listLe at hab hbc ⊢
  simp only [Bool.or_eq_true, beq_iff_eq] at hab hbc ⊢
  rcases hab with h1 | h1 <;> rcases hbc with h2 | h2
  · left; exact listLt_trans a b c h1 h2
  · left; rw [← h2]; exact h1
  · left; rw [h1]; exact h2
  · right; rw [h1, h2]

end PollsApp

namespace PollsApp

/-! # Predicate-evaluation lemmas -/

theorem optionPred_voteKey (pollId s : String) (w : DBItem) :
    optionPred pollId ((pollPK pollId, voteSK s), w) = false := by
  show (pollPK pollId == pollPK pollId && listPrefix "OPTION#".data (voteSK s).data) = false
  rw [optionPrefix_voteSK, Bool.and_false]

theorem votePred_optionKey (pollId : String) (i : Nat) (w : DBItem) :
    votePred pollId ((pollPK pollId, optionSK i), w) = false := by
  show (pollPK pollId == pollPK pollId && listPrefix "VOTE#".data (optionSK i).data) = false
  rw [votePrefix_optionSK, Bool.and_false]

theorem votePred_voteKey (pollId s : String) (w : DBItem) :
    votePred pollId ((pollPK pollId, voteSK s), w) = true := by
  show (pollPK pollId == pollPK pollId && listPrefix "VOTE#".data (voteSK s).data) = true
  rw [voteSK_hasPrefix, Bool.and_true, beq_self_eq_true]

theorem optionPred_optionKey (pollId : String) (i : Nat) (w : DBItem) :
    optionPred pollId ((pollPK pollId, optionSK i), w) = true := by
  show (pollPK pollId == pollPK pollId && listPrefix "OPTION#".data (optionSK i).data) = true
  rw [optionSK_hasPrefix, Bool.and_true, beq_self_eq_true]

theorem optionPred_pollItem (pollId : String) (w : DBItem) :
    optionPred pollId ((pollPK pollId, "POLL"), w) = false := by
  show (pollPK pollId == pollPK pollId && listPrefix "OPTION#".data "POLL".data) = false
  rw [optionPrefix_poll, Bool.and_false]

theorem votePred_pollItem (pollId : String) (w : DBItem) :
    votePred pollId ((pollPK pollId, "POLL"), w) = false := by
  show (pollPK pollId == pollPK pollId && listPrefix "VOTE#".data "POLL".data) = false
  rw [votePrefix_poll, Bool.and_false]

theorem optionItems_put_vote (t : PollsTable) (pollId s : String) (v : DBItem) :
    optionItems (tblPut t (pollPK pollId, voteSK s) v) pollId = optionItems t pollId :=
  filter_put_neg t _ v (optionPred pollId) (fun w => optionPred_voteKey pollId s w)

theorem optionItems_bump (t : PollsTable) (pollId : String) (k : Key) (δ : Int) :
    optionItems (bumpVotes t k δ) pollId = bumpVotes (optionItems t pollId) k δ :=
  filter_bump_comm t k δ (optionPred pollId) (fun _ _ _ => rfl)

theorem voteItems_bump_option (t : PollsTable) (pollId : String) (i : Nat) (δ : Int) :
    voteItems (bumpVotes t (pollPK pollId, optionSK i) δ) pollId = voteItems t pollId :=
  filter_bump_neg t _ δ (votePred pollId) (fun w => votePred_optionKey pollId i w)

theorem cntVote_bump_option (t : PollsTable) (pollId : String) (i j : Nat) (δ : Int) :
    cntVote (bumpVotes t (pollPK pollId, optionSK i) δ) pollId j = cntVote t pollId j := by
  unfold cntVote
  rw [voteItems_bump_option]

/-! # `mkOptItems` and `cntSum` lemmas -/

theorem mkOptItemsFrom_cons (pollId : String) (cnt : Nat → Int) (s : Nat)
    (txt : String) (rest : List String) :
    mkOptItemsFrom pollId cnt s (txt :: rest)
      = ((pollPK pollId, optionSK (s + 1)), mkOptItem (s + 1) txt (cnt (s + 1)))
          :: mkOptItemsFrom pollId cnt (s + 1) rest := rfl

theorem mkOptItemsFrom_exists_mem (pollId : String) (cnt : Nat → Int) :
    ∀ (opts : List String) (s i : Nat), s + 1 ≤ i → i ≤ s + opts.length →
      ∃ txt, ((pollPK pollId, optionSK i), mkOptItem i txt (cnt i))
        ∈ mkOptItemsFrom pollId cnt s opts := by
  intro opts
  induction opts with
  | nil =>
    intro s i h1 h2
    exfalso
    simp only [List.length_nil] at h2
    omega
  | cons txt rest ih =>
    intro s i h1 h2
    rw [mkOptItemsFrom_cons]
    by_cases hi : i = s + 1
    · subst hi
      exact ⟨txt, List.mem_cons_self _ _⟩
    · obtain ⟨t', ht'⟩ := ih (s + 1) i (by omega)
        (by simp only [List.length_cons] at h2; omega)
      exact ⟨t', List.mem_cons_of_mem _ ht'⟩

theorem mem_mkOptItemsFrom (pollId : String) (cnt : Nat → Int) :
    ∀ (opts : List String) (s : Nat) (e : Key × DBItem),
      e ∈ mkOptItemsFrom pollId cnt s opts →
      ∃ j txt, s + 1 ≤ j ∧ j ≤ s + opts.length ∧
        e = ((pollPK pollId, optionSK j), mkOptItem j txt (cnt j)) := by
  intro opts
  induction opts with
  | nil => intro s e he; cases he
  | cons txt rest ih =>
    intro s e he
    rw [mkOptItemsFrom_cons] at he
    rcases List.mem_cons.mp he with he | he
    · exact ⟨s + 1, txt, by omega, by simp only [List.length_cons]; omega, he⟩
    · obtain ⟨j, t', hj1, hj2, hee⟩ := ih (s + 1) e he
      refine ⟨j, t', by omega, ?_, hee⟩
      simp only [List.length_cons]
      omega

theorem bump_mkOptItemsFrom (pollId : String) (cnt : Nat → Int) (i : Nat) (δ : Int) :
    ∀ (opts : List String) (s : Nat),
      bumpVotes (mkOptItemsFrom pollId cnt s opts) (pollPK pollId, optionSK i) δ
        = mkOptItemsFrom pollId (fun j => if j = i then cnt j + δ else cnt j) s opts := by
  intro opts
  induction opts with
  | nil => intro s; rfl
  | cons txt rest ih =>
    intro s
    rw [mkOptItemsFrom_cons, bumpVotes_cons, ih, mkOptItemsFrom_cons]
    congr 1
    by_cases hsi : s + 1 = i
    · subst hsi
      rw [if_pos (by simp)]
      simp [mkOptItem]
    · rw [if_neg ?hne]
      · simp only [mkOptItem]
        rw [if_neg hsi]
      case hne =>
        simp only [beq_iff_eq, Prod.mk.injEq]
        intro hh
        exact hsi (optionSK_inj hh.2)

theorem mkOptItemsFrom_congr (pollId : String) {cnt cnt' : Nat → Int} :
    ∀ (opts : List String) (s : Nat),
      (∀ j, s + 1 ≤ j → j ≤ s + opts.length → cnt j = cnt' j) →
      mkOptItemsFrom pollId cnt s opts = mkOptItemsFrom pollId cnt' s opts := by
  intro opts
  induction opts with
  | nil => intro s h; rfl
  | cons txt rest ih =>
    intro s h
    rw [mkOptItemsFrom_cons, mkOptItemsFrom_cons,
      h (s + 1) (by omega) (by simp only [List.length_cons]; omega),
      ih (s + 1) (fun j hj1 hj2 => h j (by omega)
        (by simp only [List.length_cons]; omega))]

theorem mkOptItemsFrom_sum (pollId : String) (cnt : Nat → Int) :
    ∀ (opts : List String) (s : Nat),
      ((mkOptItemsFrom pollId cnt s opts).map (fun e => e.2.votesCount.getD 0)).sum
        = cntSum cnt s opts.length := by
  intro opts
  induction opts with
  | nil => intro s; rfl
  | cons txt rest ih =>
    intro s
    rw [mkOptItemsFrom_cons, List.map_cons, List.sum_cons, ih, List.length_cons]
    rfl

theorem cntSum_add (cnt1 cnt2 : Nat → Int) : ∀ (n s : Nat),
    cntSum (fun i => cnt1 i + cnt2 i) s n = cntSum cnt1 s n + cntSum cnt2 s n := by
  intro n
  induction n with
  | zero => intro s; simp [cntSum]
  | succ n ih =>
    intro s
    simp only [cntSum]
    rw [ih]
    ring

theorem cntSum_const_zero : ∀ (n s : Nat), cntSum (fun _ => (0 : Int)) s n = 0 := by
  intro n
  induction n with
  | zero => intro s; rfl
  | succ n ih =>
    intro s
    simp only [cntSum]
    rw [ih]
    ring

theorem cntSum_congr {cnt cnt' : Nat → Int} : ∀ (n s : Nat),
    (∀ j, s + 1 ≤ j → j ≤ s + n → cnt j = cnt' j) →
    cntSum cnt s n = cntSum cnt' s n := by
  intro n
  induction n with
  | zero => intro s h; rfl
  | succ n ih =>
    intro s h
    simp only [cntSum]
    rw [h (s + 1) (by omega) (by omega), ih (s + 1) (fun j h1 h2 => h j (by omega) (by omega))]

theorem cntSum_indicator_out (i0 : Nat) : ∀ (n s : Nat), (i0 ≤ s ∨ s + n < i0) →
    cntSum (fun i => if i = i0 then (1 : Int) else 0) s n = 0 := by
  intro n
  induction n with
  | zero => intro s _; rfl
  | succ n ih =>
    intro s hs
    simp only [cntSum]
    rw [if_neg (by omega), ih (s + 1) (by omega)]
    ring

theorem cntSum_indicator (i0 : Nat) : ∀ (n s : Nat), s + 1 ≤ i0 → i0 ≤ s + n →
    cntSum (fun i => if i = i0 then (1 : Int) else 0) s n = 1 := by
  intro n
  induction n with
  | zero => intro s h1 h2; omega
  | succ n ih =>
    intro s h1 h2
    simp only [cntSum]
    by_cases hi : s + 1 = i0
    · rw [if_pos hi, cntSum_indicator_out i0 n (s + 1) (by omega)]
      ring
    · rw [if_neg (by omega), ih (s + 1) (by omega) (by omega)]
      ring

end PollsApp

namespace PollsApp

/-! # Vote-count transport lemmas -/

theorem cntVote_eq_countP (t : PollsTable) (pollId : String) (i : Nat) :
    cntVote t pollId i
      = t.countP (fun e => (e.2.optionId == some i) && votePred pollId e) := by
  unfold cntVote voteItems
  exact List.countP_filter _ _ t

theorem lenVotes_eq_countP (t : PollsTable) (pollId : String) :
    (voteItems t pollId).length = t.countP (votePred pollId) := by
  unfold voteItems
  exact (List.countP_eq_length_filter _ _).symm

theorem cntVote_put_vote_none (t : PollsTable) (pollId s : String) (v : DBItem)
    (h : tblGet t (pollPK pollId, voteSK s) = none) (i : Nat) :
    cntVote (tblPut t (pollPK pollId, voteSK s) v) pollId i
      = cntVote t pollId i + (if v.optionId == some i then 1 else 0) := by
  rw [cntVote_eq_countP, cntVote_eq_countP, countP_put_none t _ v _ h]
  simp only [votePred_voteKey, Bool.and_true]

theorem cntVote_put_vote_some (t : PollsTable) (pollId s : String) (v w : DBItem)
    (h : tblGet t (pollPK pollId, voteSK s) = some w) (i : Nat) :
    cntVote (tblPut t (pollPK pollId, voteSK s) v) pollId i
        + (if w.optionId == some i then 1 else 0)
      = cntVote t pollId i + (if v.optionId == some i then 1 else 0) := by
  rw [cntVote_eq_countP, cntVote_eq_countP]
  have hh := countP_put_some t (pollPK pollId, voteSK s) v w
    (fun e => (e.2.optionId == some i) && votePred pollId e) h
  simpa only [votePred_voteKey, Bool.and_true] using hh

theorem lenVotes_put_none (t : PollsTable) (pollId s : String) (v : DBItem)
    (h : tblGet t (pollPK pollId, voteSK s) = none) :
    (voteItems (tblPut t (pollPK pollId, voteSK s) v) pollId).length
      = (voteItems t pollId).length + 1 := by
  rw [lenVotes_eq_countP, lenVotes_eq_countP, countP_put_none t _ v _ h]
  simp only [votePred_voteKey, if_true]

theorem lenVotes_put_some (t : PollsTable) (pollId s : String) (v w : DBItem)
    (h : tblGet t (pollPK pollId, voteSK s) = some w) :
    (voteItems (tblPut t (pollPK pollId, voteSK s) v) pollId).length
      = (voteItems t pollId).length := by
  rw [lenVotes_eq_countP, lenVotes_eq_countP]
  have hh := countP_put_some t (pollPK pollId, voteSK s) v w (votePred pollId) h
  simp only [votePred_voteKey, if_true] at hh
  omega

theorem mem_put (t : PollsTable) (k : Key) (v : DBItem) :
    ∀ e ∈ tblPut t k v, e = (k, v) ∨ e ∈ t := by
  induction t with
  | nil =>
    intro e he
    left
    simpa [tblPut] using he
  | cons x xs ih =>
    intro e he
    cases hxk : (x.1 == k) with
    | true =>
      rw [tblPut, if_pos hxk] at he
      rcases List.mem_cons.mp he with rfl | h
      · left; rfl
      · right; exact List.mem_cons_of_mem _ h
    | false =>
      rw [tblPut, if_neg (by simp [hxk])] at he
      rcases List.mem_cons.mp he with rfl | h
      · right; exact List.mem_cons_self _ _
      · rcases ih e h with h' | h'
        · left; exact h'
        · right; exact List.mem_cons_of_mem _ h'

/-! # Connection-registry frame lemmas -/

theorem messagesTail_conns (avail : Nat → Bool) (d : String → Bool) (ev : VoteEvent)
    (u : UserInfo) (st : SysState) (n : Nat) :
    (messagesTail avail d ev u st n).state.conns = st.conns := by
  simp only [messagesTail, errOut]
  repeat' split
  all_goals rfl

theorem messages_conns_frame (avail : Nat → Bool) (d : String → Bool)
    (ev : VoteEvent) (st : SysState) :
    (messagesHandler avail d ev st).state.conns = st.conns := by
  simp only [messagesHandler, errOut]
  repeat' split
  all_goals first
  | rfl
  | rw [messagesTail_conns]

end PollsApp

namespace PollsApp

/-! # The freshly created poll satisfies the invariant -/

theorem createPollItems_eq (pollId question : String) (owner : UserInfo)
    (createdAt : String) (opts : List String) :
    createPollItems pollId question owner createdAt opts
      = ((pollPK pollId, "POLL"),
          { question := some question, owner := some owner, createdAt := some createdAt })
        :: mkOptItemsFrom pollId (fun _ => 0) 0 opts := rfl

theorem filter_votePred_mkOptItemsFrom (pollId : String) (cnt : Nat → Int) :
    ∀ (opts : List String) (s : Nat),
      (mkOptItemsFrom pollId cnt s opts).filter (votePred pollId) = [] := by
  intro opts
  induction opts with
  | nil => intro s; rfl
  | cons txt rest ih =>
    intro s
    rw [mkOptItemsFrom_cons, List.filter_cons, votePred_optionKey]
    simp only [Bool.false_eq_true, if_false]
    exact ih (s + 1)

theorem filter_optionPred_mkOptItemsFrom (pollId : String) (cnt : Nat → Int) :
    ∀ (opts : List String) (s : Nat),
      (mkOptItemsFrom pollId cnt s opts).filter (optionPred pollId)
        = mkOptItemsFrom pollId cnt s opts := by
  intro opts
  induction opts with
  | nil => intro s; rfl
  | cons txt rest ih =>
    intro s
    rw [mkOptItemsFrom_cons, List.filter_cons, optionPred_optionKey]
    simp only [if_true]
    rw [ih (s + 1)]

theorem voteItems_create (pollId question : String) (owner : UserInfo)
    (createdAt : String) (opts : List String) :
    voteItems (createPollItems pollId question owner createdAt opts) pollId = [] := by
  unfold voteItems
  rw [createPollItems_eq, List.filter_cons, votePred_pollItem]
  simp only [Bool.false_eq_true, if_false]
  exact filter_votePred_mkOptItemsFrom pollId _ opts 0

theorem mkOptItemsFrom_keys (pollId : String) (cnt : Nat → Int) (opts : List String)
    (s : Nat) (k : Key) (hk : k ∈ (mkOptItemsFrom pollId cnt s opts).map Prod.fst) :
    ∃ j, s + 1 ≤ j ∧ j ≤ s + opts.length ∧ k = (pollPK pollId, optionSK j) := by
  rcases List.mem_map.mp hk with ⟨e, he, rfl⟩
  obtain ⟨j, txt, hj1, hj2, rfl⟩ := mem_mkOptItemsFrom pollId cnt opts s e he
  exact ⟨j, hj1, hj2, rfl⟩

theorem mkOptItemsFrom_keys_nodup (pollId : String) (cnt : Nat → Int) :
    ∀ (opts : List String) (s : Nat),
      ((mkOptItemsFrom pollId cnt s opts).map Prod.fst).Nodup := by
  intro opts
  induction opts with
  | nil => intro s; simp [mkOptItemsFrom, mapIdx]
  | cons txt rest ih =>
    intro s
    rw [mkOptItemsFrom_cons, List.map_cons, List.nodup_cons]
    refine ⟨fun hmem => ?_, ih (s + 1)⟩
    obtain ⟨j, hj1, hj2, hkey⟩ := mkOptItemsFrom_keys pollId cnt rest (s + 1) _ hmem
    have := optionSK_inj (congrArg Prod.snd hkey)
    omega

theorem createPollItems_nodup (pollId question : String) (owner : UserInfo)
    (createdAt : String) (opts : List String) :
    ((createPollItems pollId question owner createdAt opts).map Prod.fst).Nodup := by
  rw [createPollItems_eq, List.map_cons, List.nodup_cons]
  refine ⟨fun hmem => ?_, mkOptItemsFrom_keys_nodup pollId _ opts 0⟩
  obtain ⟨j, hj1, hj2, hkey⟩ := mkOptItemsFrom_keys pollId _ opts 0 _ hmem
  exact optionSK_ne_poll j (congrArg Prod.snd hkey).symm

theorem cntVote_create (pollId question : String) (owner : UserInfo)
    (createdAt : String) (opts : List String) (j : Nat) :
    cntVote (createPollItems pollId question owner createdAt opts) pollId j = 0 := by
  unfold cntVote
  rw [voteItems_create]
  rfl

theorem pollInv_init (pollId question : String) (owner : UserInfo)
    (createdAt : String) (opts : List String) :
    PollInv (createPollItems pollId question owner createdAt opts) pollId opts := by
  constructor
  · exact createPollItems_nodup pollId question owner createdAt opts
  · show optionItems _ pollId = mkOptItems pollId opts _
    unfold optionItems
    rw [createPollItems_eq, List.filter_cons, optionPred_pollItem]
    simp only [Bool.false_eq_true, if_false]
    rw [filter_optionPred_mkOptItemsFrom]
    unfold mkOptItems
    apply mkOptItemsFrom_congr
    intro j hj1 hj2
    rw [← createPollItems_eq, cntVote_create]
    rfl
  · intro e he
    rw [voteItems_create] at he
    cases he

end PollsApp

namespace PollsApp

/-! # Invariant preservation through `messagesTail` -/

theorem pollInv_tail (st : SysState) (opts : List String) (ev : VoteEvent)
    (d : String → Bool) (u : UserInfo) (n : Nat) (cnt : Nat → Int)
    (hnodup : (st.polls.map Prod.fst).Nodup)
    (hoptEq : optionItems st.polls ev.pollId = mkOptItems ev.pollId opts cnt)
    (hvv : ∀ e ∈ voteItems st.polls ev.pollId,
      ∃ i, e.2.optionId = some i ∧ 1 ≤ i ∧ i ≤ opts.length)
    (h1 : 1 ≤ ev.optionId) (hN : ev.optionId ≤ opts.length)
    (hcnt : ∀ i, cnt i = (cntVote st.polls ev.pollId i : Int)
      - ((tblGet st.polls (pollPK ev.pollId, voteSK u.email)).elim 0
          (fun pv => if pv.optionId == some i then 1 else 0))) :
    PollInv (messagesTail allOk d ev u st n).state.polls ev.pollId opts := by
  obtain ⟨txt, hmem⟩ := mkOptItemsFrom_exists_mem ev.pollId cnt opts 0 ev.optionId
    (by omega) (by omega)
  have hmem2 : ((pollPK ev.pollId, optionSK ev.optionId),
      mkOptItem ev.optionId txt (cnt ev.optionId)) ∈ optionItems st.polls ev.pollId := by
    rw [hoptEq]; exact hmem
  have hgetO : tblGet st.polls (pollPK ev.pollId, optionSK ev.optionId)
      = some (mkOptItem ev.optionId txt (cnt ev.optionId)) :=
    tblGet_of_mem_nodup _ _ _ hnodup (List.mem_of_mem_filter hmem2)
  have hkVne : (pollPK ev.pollId, voteSK u.email) ≠ (pollPK ev.pollId, optionSK ev.optionId) :=
    fun hh => voteSK_ne_optionSK u.email ev.optionId (congrArg Prod.snd hh)
  simp only [messagesTail, allOk, Bool.not_true, Bool.false_eq_true, if_false,
    tblUpdateAdd, hgetO, mkOptItem]
  show PollInv (tblPut (bumpVotes st.polls (pollPK ev.pollId, optionSK ev.optionId) 1)
    (pollPK ev.pollId, voteSK u.email) (voteRec ev.optionId u)) ev.pollId opts
  constructor
  · -- unique keys
    apply nodup_put
    rw [map_fst_bump]
    exact hnodup
  · -- counters match the vote records
    rw [optionItems_put_vote, optionItems_bump, hoptEq]
    unfold mkOptItems
    rw [bump_mkOptItemsFrom]
    apply mkOptItemsFrom_congr
    intro j hj1 hj2
    have hc := hcnt j
    cases hprev : tblGet st.polls (pollPK ev.pollId, voteSK u.email) with
    | none =>
      rw [hprev] at hc
      simp only [Option.elim_none] at hc
      have hprev1 : tblGet (bumpVotes st.polls (pollPK ev.pollId, optionSK ev.optionId) 1)
          (pollPK ev.pollId, voteSK u.email) = none :=
        tblGet_bump_none _ _ _ _ hprev
      rw [cntVote_put_vote_none _ ev.pollId u.email (voteRec ev.optionId u) hprev1 j,
        cntVote_bump_option]
      by_cases hoj : j = ev.optionId
      · have hB : ((voteRec ev.optionId u).optionId == some j) = true := by
          simp [voteRec, hoj]
        rw [if_pos hoj, if_pos hB]
        push_cast
        omega
      · have hB : ((voteRec ev.optionId u).optionId == some j) = false := by
          simp [voteRec]
          exact fun hh => hoj hh.symm
        rw [if_neg hoj, if_neg (ne_true_of_eq_false hB)]
        push_cast
        omega
    | some pv =>
      rw [hprev] at hc
      simp only [Option.elim_some] at hc
      have hprev1 : tblGet (bumpVotes st.polls (pollPK ev.pollId, optionSK ev.optionId) 1)
          (pollPK ev.pollId, voteSK u.email) = some pv := by
        rw [tblGet_bump_ne _ _ _ _ hkVne]; exact hprev
      have heq := cntVote_put_vote_some _ ev.pollId u.email (voteRec ev.optionId u) pv hprev1 j
      rw [cntVote_bump_option] at heq
      by_cases hoj : j = ev.optionId
      · have hB : ((voteRec ev.optionId u).optionId == some j) = true := by
          simp [voteRec, hoj]
        rw [if_pos hB] at heq
        rw [if_pos hoj]
        by_cases hpj : (pv.optionId == some j) = true
        · rw [if_pos hpj] at heq hc
          omega
        · rw [if_neg hpj] at heq hc
          omega
      · have hB : ((voteRec ev.optionId u).optionId == some j) = false := by
          simp [voteRec]
          exact fun hh => hoj hh.symm
        rw [if_neg (ne_true_of_eq_false hB)] at heq
        rw [if_neg hoj]
        by_cases hpj : (pv.optionId == some j) = true
        · rw [if_pos hpj] at heq hc
          omega
        · rw [if_neg hpj] at heq hc
          omega
  · -- every vote record points at a poll ordinal
    intro e he
    have he' := List.mem_filter.mp he
    rcases mem_put _ _ _ e he'.1 with rfl | hmemT
    · exact ⟨ev.optionId, rfl, h1, hN⟩
    · have hmemV : e ∈ voteItems
          (bumpVotes st.polls (pollPK ev.pollId, optionSK ev.optionId) 1) ev.pollId :=
        List.mem_filter.mpr ⟨hmemT, he'.2⟩
      rw [voteItems_bump_option] at hmemV
      exact hvv e hmemV

end PollsApp

namespace PollsApp

/-! # Invariant preservation through `messagesHandler` and runs -/

theorem pollInv_messages (st : SysState) (pollId : String) (opts : List String)
    (ev : VoteEvent) (d : String → Bool)
    (inv : PollInv st.polls pollId opts)
    (hev : validEvent st.conns pollId opts.length ev) :
    PollInv (messagesHandler allOk d ev st).state.polls pollId opts := by
  obtain ⟨⟨u, hconn⟩, hpid, h1, hN⟩ := hev
  subst hpid
  simp only [messagesHandler, allOk, Bool.not_true, Bool.false_eq_true, if_false, hconn]
  cases hprev : tblGet st.polls (pollPK ev.pollId, voteSK u.email) with
  | none =>
    exact pollInv_tail st opts ev d u 2 _ inv.nodup inv.optEq inv.votesValid h1 hN
      (fun i => by rw [hprev]; simp only [Option.elim_none]; ring)
  | some pv =>
    have hmemV : ((pollPK ev.pollId, voteSK u.email), pv) ∈ voteItems st.polls ev.pollId :=
      List.mem_filter.mpr ⟨mem_of_tblGet _ _ _ hprev, votePred_voteKey _ _ _⟩
    obtain ⟨p, hpopt0, hp1, hpN⟩ := inv.votesValid _ hmemV
    have hpopt : pv.optionId = some p := hpopt0
    obtain ⟨txt, hmem⟩ := mkOptItemsFrom_exists_mem ev.pollId
      (fun i => (cntVote st.polls ev.pollId i : Int)) opts 0 p (by omega) (by omega)
    have hmem2 : ((pollPK ev.pollId, optionSK p),
        mkOptItem p txt ((cntVote st.polls ev.pollId p : Int)))
          ∈ optionItems st.polls ev.pollId := by
      rw [inv.optEq]; exact hmem
    have hgetP : tblGet st.polls (pollPK ev.pollId, optionSK p)
        = some (mkOptItem p txt ((cntVote st.polls ev.pollId p : Int))) :=
      tblGet_of_mem_nodup _ _ _ inv.nodup (List.mem_of_mem_filter hmem2)
    have hkVne : (pollPK ev.pollId, voteSK u.email) ≠ (pollPK ev.pollId, optionSK p) :=
      fun hh => voteSK_ne_optionSK u.email p (congrArg Prod.snd hh)
    simp only [hpopt, tblUpdateAdd, hgetP, mkOptItem]
    apply pollInv_tail _ opts ev d u 3
      (fun j => if j = p then (cntVote st.polls ev.pollId j : Int) + (-1)
        else (cntVote st.polls ev.pollId j : Int))
    · show ((bumpVotes st.polls (pollPK ev.pollId, optionSK p) (-1)).map Prod.fst).Nodup
      rw [map_fst_bump]
      exact inv.nodup
    · show optionItems (bumpVotes st.polls (pollPK ev.pollId, optionSK p) (-1)) ev.pollId = _
      rw [optionItems_bump, inv.optEq]
      unfold mkOptItems
      rw [bump_mkOptItemsFrom]
    · show ∀ e ∈ voteItems (bumpVotes st.polls (pollPK ev.pollId, optionSK p) (-1)) ev.pollId, _
      rw [voteItems_bump_option]
      exact inv.votesValid
    · exact h1
    · exact hN
    · intro i
      show _ = (cntVote (bumpVotes st.polls (pollPK ev.pollId, optionSK p) (-1)) ev.pollId i : Int)
        - ((tblGet (bumpVotes st.polls (pollPK ev.pollId, optionSK p) (-1))
            (pollPK ev.pollId, voteSK u.email)).elim 0
              (fun pv => if pv.optionId == some i then 1 else 0))
      rw [cntVote_bump_option, tblGet_bump_ne _ _ _ _ hkVne, hprev]
      simp only [Option.elim_some, hpopt]
      by_cases hip : i = p
      · rw [if_pos hip, if_pos (by simp [hip] : ((some p == some i)) = true)]
        ring
      · rw [if_neg hip, if_neg ?hne]
        · ring
        case hne =>
          simp only [beq_iff_eq, Option.some.injEq]
          exact fun hh => hip hh.symm

theorem pollInv_run (pollId : String) (opts : List String) (d : String → Bool)
    (st : SysState) (evs : List VoteEvent)
    (inv : PollInv st.polls pollId opts)
    (hvalid : ∀ ev ∈ evs, validEvent st.conns pollId opts.length ev) :
    PollInv (runVotes d st evs).polls pollId opts := by
  induction evs generalizing st with
  | nil => exact inv
  | cons ev evs ih =>
    rw [runVotes]
    apply ih
    · exact pollInv_messages st pollId opts ev d inv (hvalid ev (List.mem_cons_self _ _))
    · intro e he
      rw [messages_conns_frame]
      exact hvalid e (List.mem_cons_of_mem _ he)

end PollsApp

namespace PollsApp

/-! # Observations derived from the invariant -/

theorem tblQuery_options (t : PollsTable) (pollId : String) :
    tblQuery t (pollPK pollId) "OPTION#"
      = sortByB (fun a b => listLe a.1.data b.1.data)
          ((optionItems t pollId).map (fun e => (e.1.2, e.2))) := rfl

theorem mkOptItemsFrom_sum_votes (pollId : String) (cnt : Nat → Int) (opts : List String) :
    ((mkOptItemsFrom pollId cnt 0 opts).map (fun e => e.2.votesCount.getD 0)).sum
      = cntSum cnt 0 opts.length :=
  mkOptItemsFrom_sum pollId cnt opts 0

theorem tallySum_eq (t : PollsTable) (pollId : String) (opts : List String)
    (inv : PollInv t pollId opts) :
    tallySum t pollId = cntSum (fun i => (cntVote t pollId i : Int)) 0 opts.length := by
  unfold tallySum getTally
  rw [tblQuery_options, List.map_map]
  rw [((perm_sortByB _ _).map _).sum_eq]
  rw [List.map_map, inv.optEq]
  unfold mkOptItems
  show ((mkOptItemsFrom pollId _ 0 opts).map (fun e => e.2.votesCount.getD 0)).sum = _
  rw [mkOptItemsFrom_sum_votes]

theorem cntSum_cntVote (opts : List String) :
    ∀ (l : List (Key × DBItem)),
      (∀ e ∈ l, ∃ i, e.2.optionId = some i ∧ 1 ≤ i ∧ i ≤ opts.length) →
      cntSum (fun i => (l.countP (fun e => e.2.optionId == some i) : Int)) 0 opts.length
        = (l.length : Int) := by
  intro l
  induction l with
  | nil =>
    intro _
    simp only [List.countP_nil, Nat.cast_zero, List.length_nil]
    exact cntSum_const_zero _ _
  | cons e rest ih =>
    intro hl
    obtain ⟨i0, hi0, h1, hN⟩ := hl e (List.mem_cons_self _ _)
    have hrest := fun e' he' => hl e' (List.mem_cons_of_mem _ he')
    have hsplit : (fun i => (((e :: rest).countP (fun e' => e'.2.optionId == some i)) : Int))
        = (fun i => (rest.countP (fun e' => e'.2.optionId == some i) : Int)
            + (if i = i0 then (1 : Int) else 0)) := by
      funext i
      simp only [List.countP_cons]
      by_cases hii : i = i0
      · have hb : (e.2.optionId == some i) = true := by rw [hi0, hii]; simp
        rw [if_pos hii, if_pos hb]
        push_cast
        ring
      · have hb : (e.2.optionId == some i) = false := by
          rw [hi0]
          simp only [beq_eq_false_iff_ne, ne_eq, Option.some.injEq]
          exact fun hh => hii hh.symm
        rw [if_neg hii, if_neg (ne_true_of_eq_false hb)]
        push_cast
        ring
    rw [hsplit, cntSum_add, ih hrest,
      cntSum_indicator i0 opts.length 0 (by omega) (by omega), List.length_cons]
    push_cast
    ring

theorem v2_of_inv (t : PollsTable) (pollId : String) (opts : List String)
    (inv : PollInv t pollId opts) :
    tallySum t pollId = ((voteItems t pollId).length : Int) := by
  rw [tallySum_eq t pollId opts inv]
  exact cntSum_cntVote opts (voteItems t pollId) inv.votesValid

theorem v1_of_inv (t : PollsTable) (pollId : String)
    (hn : (t.map Prod.fst).Nodup) (email : String) :
    (voteItems t pollId).countP (fun e => e.1.2 == voteSK email) ≤ 1 := by
  unfold voteItems
  calc (t.filter (votePred pollId)).countP (fun e => e.1.2 == voteSK email)
      = t.countP (fun e => (e.1.2 == voteSK email) && votePred pollId e) :=
        List.countP_filter _ _ t
    _ ≤ t.countP (fun e => e.1 == (pollPK pollId, voteSK email)) := by
        apply List.countP_mono_left
        intro e he hpe
        rw [Bool.and_eq_true] at hpe
        have h2 : e.1.2 = voteSK email := by simpa using hpe.1
        have h1 : e.1.1 = pollPK pollId := by
          have hv := hpe.2
          unfold votePred at hv
          rw [Bool.and_eq_true] at hv
          simpa using hv.1
        simp [Prod.ext_iff, h1, h2]
    _ ≤ 1 := countP_key_le_one t _ hn

theorem nonneg_of_inv (t : PollsTable) (pollId : String) (opts : List String)
    (inv : PollInv t pollId opts) :
    ∀ e ∈ optionItems t pollId, ∃ c : Int, e.2.votesCount = some c ∧ 0 ≤ c := by
  intro e he
  rw [inv.optEq] at he
  obtain ⟨j, txt, hj1, hj2, rfl⟩ := mem_mkOptItemsFrom pollId _ opts 0 e he
  exact ⟨(cntVote t pollId j : Int), rfl, Int.natCast_nonneg _⟩

theorem mkOptItemsFrom_ids (pollId : String) (cnt : Nat → Int) :
    ∀ (opts : List String) (s : Nat),
      (mkOptItemsFrom pollId cnt s opts).map (fun e => skNum e.1.2)
        = (List.range opts.length).map (fun j => s + j + 1) := by
  intro opts
  induction opts with
  | nil => intro s; rfl
  | cons txt rest ih =>
    intro s
    rw [mkOptItemsFrom_cons, List.map_cons, List.length_cons, List.range_succ_eq_map,
      List.map_cons, List.map_map]
    congr 1
    · show skNum (optionSK (s + 1)) = s + 0 + 1
      rw [skNum_optionSK]
    · rw [ih (s + 1)]
      apply List.map_congr_left
      intro j hj
      show s + 1 + j + 1 = s + (j + 1) + 1
      omega

theorem getTally_ids_perm (t : PollsTable) (pollId : String) (opts : List String)
    (inv : PollInv t pollId opts) :
    List.Perm ((getTally t pollId).map (fun e => e.id))
      ((List.range opts.length).map (fun j => j + 1)) := by
  unfold getTally
  rw [tblQuery_options, List.map_map]
  have hp := (perm_sortByB (fun a b : String × DBItem => listLe a.1.data b.1.data)
    ((optionItems t pollId).map (fun e => (e.1.2, e.2)))).map
    (fun e : String × DBItem => skNum e.1)
  apply hp.trans
  rw [List.map_map, inv.optEq]
  unfold mkOptItems
  have hids := mkOptItemsFrom_ids pollId
    (fun i => (cntVote t pollId i : Int)) opts 0
  show List.Perm ((mkOptItemsFrom pollId _ 0 opts).map (fun e => skNum e.1.2)) _
  rw [hids]
  apply List.Perm.of_eq
  apply List.map_congr_left
  intro j hj
  omega

theorem mem_query_sk (t : PollsTable) (pollId : String) (opts : List String)
    (inv : PollInv t pollId opts) (a : String × DBItem)
    (ha : a ∈ (optionItems t pollId).map (fun e => (e.1.2, e.2))) :
    optionSK (skNum a.1) = a.1 := by
  rcases List.mem_map.mp ha with ⟨e, he, rfl⟩
  rw [inv.optEq] at he
  obtain ⟨j, txt, _, _, rfl⟩ := mem_mkOptItemsFrom pollId _ opts 0 e he
  show optionSK (skNum (optionSK j)) = optionSK j
  rw [skNum_optionSK]

theorem getTally_sorted (t : PollsTable) (pollId : String) (opts : List String)
    (inv : PollInv t pollId opts) :
    List.Pairwise
      (fun a b => listLe (optionSK a.id).data (optionSK b.id).data = true)
      (getTally t pollId) := by
  unfold getTally
  rw [tblQuery_options, List.pairwise_map]
  have hsorted := pairwise_sortByB (fun a b : String × DBItem => listLe a.1.data b.1.data)
    (fun a b => listLe_total a.1.data b.1.data)
    (fun a b c => listLe_trans a.1.data b.1.data c.1.data)
    ((optionItems t pollId).map (fun e => (e.1.2, e.2)))
  apply List.Pairwise.imp_of_mem ?_ hsorted
  intro a b ha hb hle
  have ha' : a ∈ (optionItems t pollId).map (fun e => (e.1.2, e.2)) :=
    (perm_sortByB _ _).mem_iff.mp ha
  have hb' : b ∈ (optionItems t pollId).map (fun e => (e.1.2, e.2)) :=
    (perm_sortByB _ _).mem_iff.mp hb
  show listLe (optionSK (skNum a.1)).data (optionSK (skNum b.1)).data = true
  rw [mem_query_sk t pollId opts inv a ha', mem_query_sk t pollId opts inv b hb']
  exact hle

end PollsApp

namespace PollsApp

/-! # Bump algebra -/

theorem bump_bump (t : PollsTable) (k : Key) (δ₁ δ₂ : Int) :
    bumpVotes (bumpVotes t k δ₁) k δ₂ = bumpVotes t k (δ₁ + δ₂) := by
  induction t with
  | nil => rfl
  | cons e es ih =>
    rw [bumpVotes_cons, bumpVotes_cons, bumpVotes_cons, ih]
    congr 1
    by_cases h : (e.1 == k) = true
    · rw [if_pos h, if_pos h, if_pos h]
      cases hvc : e.2.votesCount with
      | none => simp [hvc]
      | some c => simp [hvc, add_assoc]
    · rw [if_neg h, if_neg h, if_neg h]

theorem bump_zero (t : PollsTable) (k : Key) : bumpVotes t k 0 = t := by
  induction t with
  | nil => rfl
  | cons e es ih =>
    rw [bumpVotes_cons, ih]
    congr 1
    by_cases h : (e.1 == k) = true
    · rw [if_pos h]
      cases hvc : e.2.votesCount with
      | none =>
        simp only [hvc, Option.map_none']
        rw [← hvc]
      | some c =>
        simp only [hvc, Option.map_some', add_zero]
        rw [← hvc]
    · rw [if_neg h]

/-! # Claim theorems -/

/-- Claim C4 (confirmed): resubmitting the vote the user's current Vote
record already points at leaves the stored state (all option counters and
the Vote record) exactly as it was: the handler decrements and then
increments the same option's counter (net zero) and overwrites the Vote
record with an identical item.  The hypotheses say the state is one a
first such call produced: the connection resolves to the user, the
user's Vote record points at `ev.optionId`, and that option's item exists
with a `votesCount` attribute. -/
theorem C4_idempotent_revote (st : SysState) (ev : VoteEvent) (d : String → Bool)
    (u : UserInfo) (it : DBItem) (c : Int)
    (hconn : connGet st.conns ev.connectionId = some (some u))
    (hvote : tblGet st.polls (pollPK ev.pollId, voteSK u.email) = some (voteRec ev.optionId u))
    (hopt : tblGet st.polls (pollPK ev.pollId, optionSK ev.optionId) = some it)
    (hc : it.votesCount = some c) :
    (messagesHandler allOk d ev st).state = st ∧
    (messagesHandler allOk d ev st).statusCode = 200 := by
  have hopt1 : tblGet (bumpVotes st.polls (pollPK ev.pollId, optionSK ev.optionId) (-1))
      (pollPK ev.pollId, optionSK ev.optionId)
      = some { it with votesCount := it.votesCount.map (· + (-1)) } := by
    rw [tblGet_bump_self, hopt]
    rfl
  have hvro : (voteRec ev.optionId u).optionId = some ev.optionId := rfl
  simp only [messagesHandler, allOk, Bool.not_true, Bool.false_eq_true, if_false, hconn,
    hvote, hvro, tblUpdateAdd, hopt, hc, messagesTail, hopt1, Option.map_some']
  rw [bump_bump, show ((-1 : Int) + 1) = 0 from by decide, bump_zero,
    tblPut_eq_of_get _ _ _ hvote]
  exact ⟨rfl, trivial⟩

/-- Claim C9 (confirmed): a disconnect event for a connection id with no
Connection record succeeds with statusCode 200 and leaves the whole state
(connection registry included) unchanged: DynamoDB `DeleteItem` on an
absent key is a no-op, not an error. -/
theorem C9_disconnect_idempotent (st : SysState) (cid : String)
    (h : connGet st.conns cid = none) :
    disconnectHandler allOk cid st = ({ statusCode := 200 }, st) := by
  unfold disconnectHandler
  rw [connDelete_absent st.conns cid h]
  simp [allOk]

/-- Witness for C9: disconnecting the unknown id `"nope"` on the scenario
state returns 200 and changes nothing. -/
theorem C9_witness :
    connGet st0.conns "nope" = none ∧
    disconnectHandler allOk "nope" st0 = ({ statusCode := 200 }, st0) :=
  ⟨by decide, C9_disconnect_idempotent st0 "nope" (by decide)⟩

/-- Claim C10 (confirmed): handling a vote event never mutates the
connection registry, whatever the store schedule and however many
broadcast deliveries fail: every path of `messagesHandler` returns the
connection table it was given (the handler only issues `GetItem` and
`Scan` against the connections table, and failed deliveries are not
pruned). -/
theorem C10_registry_frame (avail : Nat → Bool) (d : String → Bool)
    (ev : VoteEvent) (st : SysState) :
    (messagesHandler avail d ev st).state.conns = st.conns :=
  messages_conns_frame avail d ev st

end PollsApp

namespace PollsApp

/-- Claim C5 (confirmed): after any finite sequence of vote events from
registered users on a freshly created poll, with valid option ordinals
and the store available throughout (i.e. successful `castVote` calls),
V1 holds — each user has at most one Vote record for the poll — and V2
holds — the sum over the poll's options of `votesCount` equals the number
of Vote records for the poll. -/
theorem C5_single_vote_and_tally_sum (pollId question : String) (owner : UserInfo)
    (createdAt : String) (opts : List String) (conns : ConnTable) (d : String → Bool)
    (evs : List VoteEvent)
    (hvalid : ∀ ev ∈ evs, validEvent conns pollId opts.length ev) :
    (∀ email, ((voteItems (runVotes d
        { polls := createPollItems pollId question owner createdAt opts, conns := conns }
        evs).polls pollId).countP (fun e => e.1.2 == voteSK email)) ≤ 1) ∧
    tallySum (runVotes d
        { polls := createPollItems pollId question owner createdAt opts, conns := conns }
        evs).polls pollId
      = ((voteItems (runVotes d
          { polls := createPollItems pollId question owner createdAt opts, conns := conns }
          evs).polls pollId).length : Int) := by
  have inv := pollInv_run pollId opts d
    { polls := createPollItems pollId question owner createdAt opts, conns := conns } evs
    (pollInv_init pollId question owner createdAt opts) hvalid
  exact ⟨fun email => v1_of_inv _ pollId inv.nodup email, v2_of_inv _ pollId opts inv⟩

/-- Witness for C5: `alice` votes option 1 then option 2 on the scenario
poll; both invariants hold in the final state. -/
theorem C5_witness :
    (∀ ev ∈ [evA, evB], validEvent st0.conns "p" (["Yes", "No"] : List String).length ev) ∧
    ((∀ email, ((voteItems (runVotes (fun _ => true) st0 [evA, evB]).polls "p").countP
        (fun e => e.1.2 == voteSK email)) ≤ 1) ∧
      tallySum (runVotes (fun _ => true) st0 [evA, evB]).polls "p"
        = ((voteItems (runVotes (fun _ => true) st0 [evA, evB]).polls "p").length : Int)) := by
  have hvalid : ∀ ev ∈ [evA, evB],
      validEvent st0.conns "p" (["Yes", "No"] : List String).length ev := by
    intro ev hev
    simp only [List.mem_cons, List.not_mem_nil, or_false] at hev
    rcases hev with rfl | rfl
    · exact ⟨⟨alice, by decide⟩, rfl, by decide, by decide⟩
    · exact ⟨⟨alice, by decide⟩, rfl, by decide, by decide⟩
  exact ⟨hvalid, C5_single_vote_and_tally_sum "p" "Pizza?" pollOwner "t0" ["Yes", "No"]
    st0.conns (fun _ => true) [evA, evB] hvalid⟩

/-- Counterexample to C3 as stated: the sequence vote(1), vote(99),
vote(99) by `alice` — processed to quiescence — leaves option 1's
`votesCount` at −1.  Each invalid vote decrements the previous option
before the increment of the nonexistent option fails, and the vote record
still points at option 1, so the decrement strikes twice. -/
theorem C3_counterexample :
    (tblGet (runVotes (fun _ => true) st0 [evA, ev99, ev99]).polls
      (pollPK "p", optionSK 1)).map (fun it => it.votesCount)
      = some (some (-1)) := by decide

/-- Claim C3 (corrected): restricted to vote events with VALID option
ordinals (and resolvable connections), every option's `votesCount` is a
non-negative integer at every quiescent state; with invalid optionIds in
the sequence the counter can go negative (`C3_counterexample`). -/
theorem C3_amended_nonneg (pollId question : String) (owner : UserInfo)
    (createdAt : String) (opts : List String) (conns : ConnTable) (d : String → Bool)
    (evs : List VoteEvent)
    (hvalid : ∀ ev ∈ evs, validEvent conns pollId opts.length ev) :
    ∀ e ∈ optionItems (runVotes d
        { polls := createPollItems pollId question owner createdAt opts, conns := conns }
        evs).polls pollId,
      ∃ c : Int, e.2.votesCount = some c ∧ 0 ≤ c := by
  have inv := pollInv_run pollId opts d
    { polls := createPollItems pollId question owner createdAt opts, conns := conns } evs
    (pollInv_init pollId question owner createdAt opts) hvalid
  exact nonneg_of_inv _ pollId opts inv

/-- Witness for the amended C3: after `alice` revotes, every counter of
the scenario poll is a non-negative integer. -/
theorem C3_amended_witness :
    (∀ ev ∈ [evB], validEvent st0.conns "p" (["Yes", "No"] : List String).length ev) ∧
    (∀ e ∈ optionItems (runVotes (fun _ => true) st0 [evB]).polls "p",
      ∃ c : Int, e.2.votesCount = some c ∧ 0 ≤ c) := by
  have hvalid : ∀ ev ∈ [evB],
      validEvent st0.conns "p" (["Yes", "No"] : List String).length ev := by
    intro ev hev
    simp only [List.mem_cons, List.not_mem_nil, or_false] at hev
    rcases hev with rfl
    exact ⟨⟨alice, by decide⟩, rfl, by decide, by decide⟩
  exact ⟨hvalid, C3_amended_nonneg "p" "Pizza?" pollOwner "t0" ["Yes", "No"]
    st0.conns (fun _ => true) [evB] hvalid⟩

/-- Counterexample to C6 as stated: on a ten-option poll, the tally built
after a vote lists the ids in the order 1, 10, 2, …, 9 — the lexicographic
order of the string sort keys `OPTION#1` < `OPTION#10` < `OPTION#2` < … —
not the ordinal order 1, 2, …, 10. -/
theorem C6_counterexample :
    ((getTally (messagesHandler allOk (fun _ => true) evQ st10).state.polls "q").map
      (fun e => e.id) = [1, 10, 2, 3, 4, 5, 6, 7, 8, 9]) ∧
    ((getTally (messagesHandler allOk (fun _ => true) evQ st10).state.polls "q").map
      (fun e => e.id) ≠ [1, 2, 3, 4, 5, 6, 7, 8, 9, 10]) := by decide

/-- Claim C6 (corrected): the tally built after the votes lists every
option of the poll exactly once — its ids are a permutation of the
ordinals 1..N — but the order is the lexicographic order of the string
sort key `OPTION#<ordinal>` (DynamoDB's query order), which differs from
numeric ordinal order once the poll has ten or more options
(`C6_counterexample`). -/
theorem C6_amended_tally_order (pollId question : String) (owner : UserInfo)
    (createdAt : String) (opts : List String) (conns : ConnTable) (d : String → Bool)
    (evs : List VoteEvent)
    (hvalid : ∀ ev ∈ evs, validEvent conns pollId opts.length ev) :
    List.Perm ((getTally (runVotes d
        { polls := createPollItems pollId question owner createdAt opts, conns := conns }
        evs).polls pollId).map (fun e => e.id))
      ((List.range opts.length).map (fun j => j + 1)) ∧
    List.Pairwise (fun a b => listLe (optionSK a.id).data (optionSK b.id).data = true)
      (getTally (runVotes d
        { polls := createPollItems pollId question owner createdAt opts, conns := conns }
        evs).polls pollId) := by
  have inv := pollInv_run pollId opts d
    { polls := createPollItems pollId question owner createdAt opts, conns := conns } evs
    (pollInv_init pollId question owner createdAt opts) hvalid
  exact ⟨getTally_ids_perm _ pollId opts inv, getTally_sorted _ pollId opts inv⟩

/-- Witness for the amended C6: after `alice`'s vote on the ten-option
poll, the tally ids are a permutation of 1..10 and the entries are sorted
by the lexicographic sort-key order. -/
theorem C6_amended_witness :
    (∀ ev ∈ [evQ], validEvent st10.conns "q"
      (["a", "b", "c", "d", "e", "f", "g", "h", "i", "j"] : List String).length ev) ∧
    (List.Perm ((getTally (runVotes (fun _ => true) st10 [evQ]).polls "q").map
        (fun e => e.id))
      ((List.range (["a", "b", "c", "d", "e", "f", "g", "h", "i", "j"] :
          List String).length).map (fun j => j + 1)) ∧
    List.Pairwise (fun a b => listLe (optionSK a.id).data (optionSK b.id).data = true)
      (getTally (runVotes (fun _ => true) st10 [evQ]).polls "q")) := by
  have hvalid : ∀ ev ∈ [evQ], validEvent st10.conns "q"
      (["a", "b", "c", "d", "e", "f", "g", "h", "i", "j"] : List String).length ev := by
    intro ev hev
    simp only [List.mem_cons, List.not_mem_nil, or_false] at hev
    rcases hev with rfl
    exact ⟨⟨alice, by decide⟩, rfl, by decide, by decide⟩
  exact ⟨hvalid, C6_amended_tally_order "q" "Q?" pollOwner "t0"
    ["a", "b", "c", "d", "e", "f", "g", "h", "i", "j"]
    st10.conns (fun _ => true) [evQ] hvalid⟩

end PollsApp

namespace PollsApp

/-- Witness for C4: after `alice`'s vote for option 1, resubmitting the
identical vote leaves the stored state exactly as the first call left it
and still returns 200. -/
theorem C4_witness :
    connGet st1.conns evA.connectionId = some (some alice) ∧
    tblGet st1.polls (pollPK evA.pollId, voteSK alice.email)
      = some (voteRec evA.optionId alice) ∧
    ((messagesHandler allOk (fun _ => true) evA st1).state = st1 ∧
      (messagesHandler allOk (fun _ => true) evA st1).statusCode = 200) :=
  ⟨by decide, by decide,
    C4_idempotent_revote st1 evA (fun _ => true) alice (mkOptItem 1 "Yes" 1) 1
      (by decide) (by decide) (by decide) (by decide)⟩

/-- Counterexample to C1 as stated: `alice` holds a previous vote on
option 1 (counter 1) and revotes option 2 while the store fails at the
increment (the fourth store call).  The handler returns 500, yet option
1's counter has changed from 1 to 0: the decrement committed alone, so
neither are all three effects applied nor has nothing changed. -/
theorem C1_counterexample :
    (messagesHandler (fun n => !(n == 3)) (fun _ => true) evB st1).statusCode = 500 ∧
    (tblGet st1.polls (pollPK "p", optionSK 1)).map (fun it => it.votesCount)
      = some (some 1) ∧
    (tblGet (messagesHandler (fun n => !(n == 3)) (fun _ => true) evB st1).state.polls
      (pollPK "p", optionSK 1)).map (fun it => it.votesCount) = some (some 0) ∧
    (tblGet (messagesHandler (fun n => !(n == 3)) (fun _ => true) evB st1).state.polls
      (pollPK "p", optionSK 2)).map (fun it => it.votesCount) = some (some 0) ∧
    tblGet (messagesHandler (fun n => !(n == 3)) (fun _ => true) evB st1).state.polls
      (pollPK "p", voteSK "a@x") = some (voteRec 1 alice) := by decide

/-- Claim C1 (corrected): the revote's three effects are three separate
sequential store calls, not one atomic transaction.  When the store is
available throughout, all three effects are applied — the previous
option's counter is decremented, the new option's counter incremented,
and the Vote record overwritten — but a store failure between the calls
leaves the earlier effects committed on their own (`C1_counterexample`). -/
theorem C1_amended_revote_effects (st : SysState) (ev : VoteEvent) (d : String → Bool)
    (u : UserInfo) (pv itp ito : DBItem) (p : Nat) (cp co : Int)
    (hconn : connGet st.conns ev.connectionId = some (some u))
    (hprev : tblGet st.polls (pollPK ev.pollId, voteSK u.email) = some pv)
    (hpv : pv.optionId = some p)
    (hne : p ≠ ev.optionId)
    (hp : tblGet st.polls (pollPK ev.pollId, optionSK p) = some itp)
    (hcp : itp.votesCount = some cp)
    (ho : tblGet st.polls (pollPK ev.pollId, optionSK ev.optionId) = some ito)
    (hco : ito.votesCount = some co) :
    (messagesHandler allOk d ev st).statusCode = 200 ∧
    (tblGet (messagesHandler allOk d ev st).state.polls
      (pollPK ev.pollId, optionSK p)).map (fun it => it.votesCount)
      = some (some (cp - 1)) ∧
    (tblGet (messagesHandler allOk d ev st).state.polls
      (pollPK ev.pollId, optionSK ev.optionId)).map (fun it => it.votesCount)
      = some (some (co + 1)) ∧
    tblGet (messagesHandler allOk d ev st).state.polls
      (pollPK ev.pollId, voteSK u.email) = some (voteRec ev.optionId u) := by
  have hKOp : (pollPK ev.pollId, optionSK ev.optionId) ≠ (pollPK ev.pollId, optionSK p) :=
    fun hh => hne (optionSK_inj (congrArg Prod.snd hh)).symm
  have hKPo : (pollPK ev.pollId, optionSK p) ≠ (pollPK ev.pollId, optionSK ev.optionId) :=
    fun hh => hne (optionSK_inj (congrArg Prod.snd hh))
  have hKPv : (pollPK ev.pollId, optionSK p) ≠ (pollPK ev.pollId, voteSK u.email) :=
    fun hh => voteSK_ne_optionSK u.email p (congrArg Prod.snd hh).symm
  have hKOv : (pollPK ev.pollId, optionSK ev.optionId) ≠ (pollPK ev.pollId, voteSK u.email) :=
    fun hh => voteSK_ne_optionSK u.email ev.optionId (congrArg Prod.snd hh).symm
  have hgetT1 : tblGet (bumpVotes st.polls (pollPK ev.pollId, optionSK p) (-1))
      (pollPK ev.pollId, optionSK ev.optionId) = some ito := by
    rw [tblGet_bump_ne _ _ _ _ hKOp]
    exact ho
  simp only [messagesHandler, allOk, Bool.not_true, Bool.false_eq_true, if_false, hconn,
    hprev, hpv, tblUpdateAdd, hp, hcp, messagesTail, hgetT1, hco]
  refine ⟨trivial, ?_, ?_, ?_⟩
  · rw [tblGet_put_ne _ _ _ _ hKPv, tblGet_bump_ne _ _ _ _ hKPo, tblGet_bump_self, hp]
    simp only [Option.map_some', hcp]
    rw [show cp + (-1) = cp - 1 from by ring]
  · rw [tblGet_put_ne _ _ _ _ hKOv, tblGet_bump_self, hgetT1]
    simp only [Option.map_some', hco]
  · rw [tblGet_put_self]

/-- Witness for the amended C1: `alice` revotes from option 1 to option 2
with the store available; the decrement, increment, and record overwrite
are all applied. -/
theorem C1_amended_witness :
    connGet st1.conns evB.connectionId = some (some alice) ∧
    tblGet st1.polls (pollPK evB.pollId, voteSK alice.email)
      = some (voteRec 1 alice) ∧
    ((messagesHandler allOk (fun _ => true) evB st1).statusCode = 200 ∧
      (tblGet (messagesHandler allOk (fun _ => true) evB st1).state.polls
        (pollPK evB.pollId, optionSK 1)).map (fun it => it.votesCount)
        = some (some ((1 : Int) - 1)) ∧
      (tblGet (messagesHandler allOk (fun _ => true) evB st1).state.polls
        (pollPK evB.pollId, optionSK evB.optionId)).map (fun it => it.votesCount)
        = some (some ((0 : Int) + 1)) ∧
      tblGet (messagesHandler allOk (fun _ => true) evB st1).state.polls
        (pollPK evB.pollId, voteSK alice.email) = some (voteRec evB.optionId alice)) :=
  ⟨by decide, by decide,
    C1_amended_revote_effects st1 evB (fun _ => true) alice (voteRec 1 alice)
      (mkOptItem 1 "Yes" 1) (mkOptItem 2 "No" 0) 1 1 0
      (by decide) (by decide) (by decide) (by decide) (by decide) (by decide)
      (by decide) (by decide)⟩

end PollsApp

namespace PollsApp

/-- Counterexample to C2 as stated: `alice` already holds a vote on
option 1 when she votes for the nonexistent option 99.  The handler does
fail (500) and broadcasts nothing, but the error is the store's
ValidationException — no `InvalidOption` value exists — and option 1's
counter HAS changed: it was decremented from 1 to 0 before the increment
of `OPTION#99` failed. -/
theorem C2_counterexample :
    (messagesHandler allOk (fun _ => true) ev99 st1).statusCode = 500 ∧
    (messagesHandler allOk (fun _ => true) ev99 st1).errorMsg ≠ some "InvalidOption" ∧
    (messagesHandler allOk (fun _ => true) ev99 st1).delivered = [] ∧
    (tblGet st1.polls (pollPK "p", optionSK 1)).map (fun it => it.votesCount)
      = some (some 1) ∧
    (tblGet (messagesHandler allOk (fun _ => true) ev99 st1).state.polls
      (pollPK "p", optionSK 1)).map (fun it => it.votesCount) = some (some 0) := by decide

/-- Claim C2 (corrected): a vote for an optionId with no option item
fails only because DynamoDB's `SET votesCount = votesCount + 1` rejects a
missing item (ValidationException), surfaced as a generic 500 — there is
no `InvalidOption` validation — and no broadcast is sent.  When the user
had no previous vote the state is unchanged; but when the user holds a
previous vote, the previous option's counter has already been decremented
when the failure hits, so the tally does change (`C2_counterexample`). -/
theorem C2_amended_invalid_option (st : SysState) (ev : VoteEvent) (d : String → Bool)
    (u : UserInfo)
    (hconn : connGet st.conns ev.connectionId = some (some u))
    (habs : tblGet st.polls (pollPK ev.pollId, optionSK ev.optionId) = none) :
    (tblGet st.polls (pollPK ev.pollId, voteSK u.email) = none →
      messagesHandler allOk d ev st = errOut st "ValidationException") ∧
    (∀ pv p itp cp,
      tblGet st.polls (pollPK ev.pollId, voteSK u.email) = some pv →
      pv.optionId = some p →
      tblGet st.polls (pollPK ev.pollId, optionSK p) = some itp →
      itp.votesCount = some cp →
      messagesHandler allOk d ev st
          = errOut { st with polls := bumpVotes st.polls (pollPK ev.pollId, optionSK p) (-1) }
            "ValidationException" ∧
        (tblGet (messagesHandler allOk d ev st).state.polls
          (pollPK ev.pollId, optionSK p)).map (fun it => it.votesCount)
          = some (some (cp - 1))) := by
  constructor
  · intro hnoprev
    simp only [messagesHandler, allOk, Bool.not_true, Bool.false_eq_true, if_false, hconn,
      hnoprev, messagesTail, tblUpdateAdd, habs]
  · intro pv p itp cp hprev hpv hp hcp
    have habs1 : tblGet (bumpVotes st.polls (pollPK ev.pollId, optionSK p) (-1))
        (pollPK ev.pollId, optionSK ev.optionId) = none :=
      tblGet_bump_none _ _ _ _ habs
    have hrun : messagesHandler allOk d ev st
        = errOut { st with polls := bumpVotes st.polls (pollPK ev.pollId, optionSK p) (-1) }
          "ValidationException" := by
      simp only [messagesHandler, allOk, Bool.not_true, Bool.false_eq_true, if_false, hconn,
        hprev, hpv, tblUpdateAdd, hp, hcp, messagesTail, habs1]
    refine ⟨hrun, ?_⟩
    rw [hrun]
    show (tblGet (bumpVotes st.polls (pollPK ev.pollId, optionSK p) (-1))
      (pollPK ev.pollId, optionSK p)).map (fun it => it.votesCount) = some (some (cp - 1))
    rw [tblGet_bump_self, hp]
    simp only [Option.map_some', hcp]
    rw [show cp + (-1) = cp - 1 from by ring]

/-- Witness for the amended C2: the vote for option 99 on the scenario
state with `alice`'s previous vote on option 1 ends in the
ValidationException outcome with the decrement applied. -/
theorem C2_amended_witness :
    connGet st1.conns ev99.connectionId = some (some alice) ∧
    tblGet st1.polls (pollPK ev99.pollId, optionSK ev99.optionId) = none ∧
    (messagesHandler allOk (fun _ => true) ev99 st1
        = errOut { st1 with polls := bumpVotes st1.polls (pollPK ev99.pollId, optionSK 1) (-1) }
          "ValidationException" ∧
      (tblGet (messagesHandler allOk (fun _ => true) ev99 st1).state.polls
        (pollPK ev99.pollId, optionSK 1)).map (fun it => it.votesCount)
        = some (some ((1 : Int) - 1))) :=
  ⟨by decide, by decide,
    (C2_amended_invalid_option st1 ev99 (fun _ => true) alice (by decide) (by decide)).2
      (voteRec 1 alice) 1 (mkOptItem 1 "Yes" 1) 1
      (by decide) (by decide) (by decide) (by decide)⟩

end PollsApp

namespace PollsApp

/-- Symbolic execution of a successful first vote (no previous record,
store available): the handler returns 200, applies the increment and the
record write, and posts one payload to every scanned connection the
transport accepts. -/
theorem messages_success_no_prev (st : SysState) (ev : VoteEvent) (d : String → Bool)
    (u : UserInfo) (it : DBItem) (c : Int)
    (hconn : connGet st.conns ev.connectionId = some (some u))
    (hnoprev : tblGet st.polls (pollPK ev.pollId, voteSK u.email) = none)
    (hopt : tblGet st.polls (pollPK ev.pollId, optionSK ev.optionId) = some it)
    (hc : it.votesCount = some c) :
    messagesHandler allOk d ev st
      = { statusCode := 200, errorMsg := none,
          state := { st with polls := postVoteTable st.polls ev u },
          delivered := ((st.conns.map Prod.fst).filter d).map
            (fun cc => (cc, votePayload (postVoteTable st.polls ev u) ev u)) } := by
  simp only [messagesHandler, allOk, Bool.not_true, Bool.false_eq_true, if_false, hconn,
    hnoprev, messagesTail, tblUpdateAdd, hopt, hc, postVoteTable, votePayload]

/-- Counterexample to C7 as stated: with two registered connections and
the delivery to `"c2"` failing, the handler's returned value is identical
to the all-success run — statusCode 200, no error body, no delivered
count, no failed-connection list — although the delivered sets differ
(2 versus 1 recipients).  Nothing in the outcome reports
`delivered = K − 1` or identifies the failed connection. -/
theorem C7_counterexample :
    ((messagesHandler allOk (fun _ => true) evA st0).statusCode
        = (messagesHandler allOk (fun cc => !(cc == "c2")) evA st0).statusCode) ∧
    ((messagesHandler allOk (fun _ => true) evA st0).errorMsg
        = (messagesHandler allOk (fun cc => !(cc == "c2")) evA st0).errorMsg) ∧
    (messagesHandler allOk (fun _ => true) evA st0).delivered.length = 2 ∧
    (messagesHandler allOk (fun cc => !(cc == "c2")) evA st0).delivered.length = 1 := by
  decide

/-- Claim C7 (corrected): per-recipient failures are isolated — when one
of the K registered connections fails, each of the other K−1 connections
still receives the payload, the failed one receives nothing, and the
error is swallowed (the handler still returns 200); in reality
`delivered = K − 1` holds of the successful posts, but the handler
reports nothing: the Promise.allSettled outcomes are discarded
(`C7_counterexample`). -/
theorem C7_amended_broadcast_isolation (st : SysState) (ev : VoteEvent)
    (u : UserInfo) (it : DBItem) (c : Int) (c0 : String)
    (hconn : connGet st.conns ev.connectionId = some (some u))
    (hnoprev : tblGet st.polls (pollPK ev.pollId, voteSK u.email) = none)
    (hopt : tblGet st.polls (pollPK ev.pollId, optionSK ev.optionId) = some it)
    (hc : it.votesCount = some c)
    (hnodup : (st.conns.map Prod.fst).Nodup)
    (hc0 : c0 ∈ st.conns.map Prod.fst) :
    (messagesHandler allOk (fun cc => !(cc == c0)) ev st).statusCode = 200 ∧
    (∃ pl : Payload,
      ∀ cc ∈ st.conns.map Prod.fst, cc ≠ c0 →
        (cc, pl) ∈ (messagesHandler allOk (fun cc => !(cc == c0)) ev st).delivered) ∧
    (messagesHandler allOk (fun cc => !(cc == c0)) ev st).delivered.length
      = (st.conns.map Prod.fst).length - 1 ∧
    (∀ x ∈ (messagesHandler allOk (fun cc => !(cc == c0)) ev st).delivered, x.1 ≠ c0) := by
  rw [messages_success_no_prev st ev _ u it c hconn hnoprev hopt hc]
  refine ⟨rfl, ⟨votePayload (postVoteTable st.polls ev u) ev u, ?_⟩, ?_, ?_⟩
  · intro cc hcc hne
    apply List.mem_map.mpr
    refine ⟨cc, List.mem_filter.mpr ⟨hcc, ?_⟩, rfl⟩
    simp [beq_eq_false_iff_ne, hne]
  · rw [List.length_map]
    show (List.filter (fun cc => cc != c0) (List.map Prod.fst st.conns)).length
      = (List.map Prod.fst st.conns).length - 1
    rw [← hnodup.erase_eq_filter c0, List.length_erase_of_mem hc0]
  · intro x hx
    rcases List.mem_map.mp hx with ⟨cc, hcc, rfl⟩
    have := (List.mem_filter.mp hcc).2
    simpa using this

/-- Witness for the amended C7: on the scenario state, `alice`'s first
vote with delivery to `"c2"` failing still reaches `"c1"`, one of two
registered connections. -/
theorem C7_amended_witness :
    connGet st0.conns evA.connectionId = some (some alice) ∧
    (st0.conns.map Prod.fst).Nodup ∧
    "c2" ∈ st0.conns.map Prod.fst ∧
    ((messagesHandler allOk (fun cc => !(cc == "c2")) evA st0).statusCode = 200 ∧
      (∃ pl : Payload,
        ∀ cc ∈ st0.conns.map Prod.fst, cc ≠ "c2" →
          (cc, pl) ∈ (messagesHandler allOk (fun cc => !(cc == "c2")) evA st0).delivered) ∧
      (messagesHandler allOk (fun cc => !(cc == "c2")) evA st0).delivered.length
        = (st0.conns.map Prod.fst).length - 1 ∧
      (∀ x ∈ (messagesHandler allOk (fun cc => !(cc == "c2")) evA st0).delivered,
        x.1 ≠ "c2")) :=
  ⟨by decide, by decide, by decide,
    C7_amended_broadcast_isolation st0 evA alice (mkOptItem 1 "Yes" 0) 0 "c2"
      (by decide) (by decide) (by decide) (by decide) (by decide) (by decide)⟩

/-- Counterexample to C8 as stated: the complete broadcast `Data` of
scenario A's successful vote is exactly `{pollId, options, user}` — the
`Payload` type, faithful to `votes.mjs`'s
`JSON.stringify({pollId, options, user})`, has no `votedAt` field and the
handler takes no time input, so the payload cannot contain the vote's
timestamp. -/
theorem C8_counterexample :
    (messagesHandler allOk (fun _ => true) evA st0).delivered
      = [("c1", scenarioAPayload), ("c2", scenarioAPayload)] := by decide

/-- Claim C8 (corrected): every payload broadcast for a successful vote
carries the pollId, the tally, and the acting voter's identity — but no
timestamp: `votes.mjs` serializes exactly `{pollId, options, user}` (the
`part_002` variant adds the invocation time under `createdAt`, still not
`votedAt`). -/
theorem C8_amended_payload (st : SysState) (ev : VoteEvent) (d : String → Bool)
    (u : UserInfo) (it : DBItem) (c : Int)
    (hconn : connGet st.conns ev.connectionId = some (some u))
    (hnoprev : tblGet st.polls (pollPK ev.pollId, voteSK u.email) = none)
    (hopt : tblGet st.polls (pollPK ev.pollId, optionSK ev.optionId) = some it)
    (hc : it.votesCount = some c) :
    ∀ x ∈ (messagesHandler allOk d ev st).delivered,
      x.2 = { pollId := ev.pollId,
              options := getTally (messagesHandler allOk d ev st).state.polls ev.pollId,
              user := u } := by
  rw [messages_success_no_prev st ev d u it c hconn hnoprev hopt hc]
  intro x hx
  rcases List.mem_map.mp hx with ⟨cc, hcc, rfl⟩
  rfl

/-- Witness for the amended C8: both connections of the scenario receive
the payload with the pollId, the tally, and `alice`'s identity. -/
theorem C8_amended_witness :
    connGet st0.conns evA.connectionId = some (some alice) ∧
    tblGet st0.polls (pollPK evA.pollId, voteSK alice.email) = none ∧
    (∀ x ∈ (messagesHandler allOk (fun _ => true) evA st0).delivered,
      x.2 = { pollId := evA.pollId,
              options := getTally
                (messagesHandler allOk (fun _ => true) evA st0).state.polls evA.pollId,
              user := alice }) :=
  ⟨by decide, by decide,
    C8_amended_payload st0 evA (fun _ => true) alice (mkOptItem 1 "Yes" 0) 0
      (by decide) (by decide) (by decide) (by decide)⟩

end PollsApp
